import Mathlib

/-!
Shallow embedding of the OpenRGB client wire codec (openrgb-rs).

Bytes are modelled as `Nat` (values kept below 256 by the write primitives,
which reduce modulo 256 exactly where the Rust source casts to `u8`).
Machine integers are `Nat`/`Int` with explicit `% 2^w` at the points where the
source performs an `as` cast or relies on a fixed-width type.
Fallible Rust functions returning `OpenRgbResult<T>` become
`Except OpenRgbError T`.
-/

namespace OpenRgb

/-- Embeds the crate error enum (`OpenRgbError`).  Only the constructors the
codec layer produces are modelled; formatted payloads of messages are kept as
plain strings.  `IoError` stands for the pass-through of `std::io::Error`
values (the error enum's source file is not part of the snapshot; the spec
says transport I/O errors are passed through unchanged). -/
inductive OpenRgbError where
  | ProtocolError (msg : String)
  | UnsupportedOperation (operation : String) (currentVersion minVersion : Nat)
  | IoError (msg : String)
  deriving Repr, DecidableEq

/-- Source: `OpenRgbResult<T>` from the crate. -/
abbrev OpenRgbResult (α : Type) := Except OpenRgbError α

/-- Little-endian two-byte encoding of a `u16` value (`u16::to_le_bytes`).
Reducing each byte modulo 256 makes this agree with the Rust cast `as u16`
composed with `to_le_bytes` for any `Nat` input. -/
def toLE2 (v : Nat) : List Nat := [v % 256, v / 256 % 256]

/-- Little-endian four-byte encoding of a `u32` value (`u32::to_le_bytes`). -/
def toLE4 (v : Nat) : List Nat :=
  [v % 256, v / 256 % 256, v / 65536 % 256, v / 16777216 % 256]

/-- Little-endian recomposition of two bytes (`u16::from_le_bytes`). -/
def fromLE2 (b0 b1 : Nat) : Nat := b0 + 256 * b1

/-- Little-endian recomposition of four bytes (`u32::from_le_bytes`). -/
def fromLE4 (b0 b1 b2 b3 : Nat) : Nat :=
  b0 + 256 * b1 + 65536 * b2 + 16777216 * b3

/-- Source: `DEFAULT_PROTOCOL` from `protocol/mod.rs`: the client's maximum supported
protocol version. -/
def DEFAULT_PROTOCOL : Nat := 5

/-- Source: `ReceivedMessage` from `protocol/stream2.rs`: a read-side cursor over a
received byte slice, tagged with the negotiated protocol version. -/
structure ReceivedMessage where
  protocol_version : Nat
  buf : List Nat
  idx : Nat
  deriving Repr, DecidableEq

namespace ReceivedMessage

/-- Source: `ReceivedMessage::new`. -/
def new (buf : List Nat) (protocol_version : Nat) : ReceivedMessage :=
  { protocol_version := protocol_version, buf := buf, idx := 0 }

/-- Source: `ReceivedMessage::available_buf`: `&self.buf[self.idx..]`. -/
def available_buf (m : ReceivedMessage) : List Nat := m.buf.drop m.idx

/-- Source: `ReceivedMessage::read_u8`. -/
def read_u8 (m : ReceivedMessage) : OpenRgbResult (Nat × ReceivedMessage) :=
  match m.available_buf with
  | [] => .error (.ProtocolError "Not enough bytes to read u8")
  | b :: _ => .ok (b, { m with idx := m.idx + 1 })

/-- Source: `ReceivedMessage::read_u16`. -/
def read_u16 (m : ReceivedMessage) : OpenRgbResult (Nat × ReceivedMessage) :=
  match m.available_buf with
  | b0 :: b1 :: _ => .ok (fromLE2 b0 b1, { m with idx := m.idx + 2 })
  | _ => .error (.ProtocolError "Not enough bytes to read u16")

/-- Source: `ReceivedMessage::read_u32`.  The source's error message for this reader
says "u16" (a verbatim copy of the `read_u16` message); the embedding keeps
that string. -/
def read_u32 (m : ReceivedMessage) : OpenRgbResult (Nat × ReceivedMessage) :=
  match m.available_buf with
  | b0 :: b1 :: b2 :: b3 :: _ =>
      .ok (fromLE4 b0 b1 b2 b3, { m with idx := m.idx + 4 })
  | _ => .error (.ProtocolError "Not enough bytes to read u16")

/-- The `std::io::Read` impl for `ReceivedMessage`: copies
`min(requested, available)` bytes and advances the cursor; never fails.
Returns the number of bytes copied, the bytes, and the new cursor. -/
def read (m : ReceivedMessage) (n : Nat) : Nat × List Nat × ReceivedMessage :=
  let available := m.buf.drop m.idx
  let len := min n available.length
  (len, available.take len, { m with idx := m.idx + len })

/-- Source: `std::io::Read::read_exact` as it behaves on the `Read` impl above: reads
`n` bytes if that many remain, otherwise fails with the standard library's
`UnexpectedEof` error ("failed to fill whole buffer"). -/
def read_exact (m : ReceivedMessage) (n : Nat) :
    OpenRgbResult (List Nat × ReceivedMessage) :=
  if n ≤ m.available_buf.length then
    .ok (m.available_buf.take n, { m with idx := m.idx + n })
  else
    .error (.IoError "failed to fill whole buffer")

/-- Source: `ReceivedMessage::read_n_values`: reads `n` consecutive values of a type
through its deserializer, with no length prefix of its own. -/
def read_n_values (deserT : ReceivedMessage → OpenRgbResult (α × ReceivedMessage)) :
    Nat → ReceivedMessage → OpenRgbResult (List α × ReceivedMessage)
  | 0, m => .ok ([], m)
  | n + 1, m => do
    let (x, m) ← deserT m
    let (xs, m) ← read_n_values deserT n m
    .ok (x :: xs, m)

end ReceivedMessage

/-- Source: `WriteMessage` from `protocol/stream2.rs`: a growable write-side byte
buffer tagged with the protocol version in effect. -/
structure WriteMessage where
  protocol_version : Nat
  buf : List Nat
  deriving Repr, DecidableEq

namespace WriteMessage

/-- Source: `WriteMessage::new` (capacity is irrelevant to the embedding). -/
def new (protocol_version : Nat) : WriteMessage :=
  { protocol_version := protocol_version, buf := [] }

/-- Source: `WriteMessage::len`. -/
def len (m : WriteMessage) : Nat := m.buf.length

/-- Source: `WriteMessage::write_u8`: pushes one byte.  The argument is reduced modulo
256, matching the `u8` parameter type of the source. -/
def write_u8 (m : WriteMessage) (v : Nat) : WriteMessage :=
  { m with buf := m.buf ++ [v % 256] }

/-- Source: `WriteMessage::write_u16`: appends `v.to_le_bytes()`.  `toLE2` reduces
modulo 2^16, matching the `u16` parameter type. -/
def write_u16 (m : WriteMessage) (v : Nat) : WriteMessage :=
  { m with buf := m.buf ++ toLE2 v }

/-- Source: `WriteMessage::write_u32`: appends `v.to_le_bytes()`. -/
def write_u32 (m : WriteMessage) (v : Nat) : WriteMessage :=
  { m with buf := m.buf ++ toLE4 v }

/-- Source: `WriteMessage::extend_from_slice`. -/
def extend_from_slice (m : WriteMessage) (s : List Nat) : WriteMessage :=
  { m with buf := m.buf ++ s }

end WriteMessage

/-! ## Color (`protocol/data/color.rs`) -/

/-- Source: `Color` (an alias of `rgb::RGB8`): three 8-bit channels. -/
structure Color where
  r : Nat
  g : Nat
  b : Nat
  deriving Repr, DecidableEq

namespace Color

/-- Source: `SerToBuf for Color`: writes R, G, B then a zero padding byte. -/
def serialize (c : Color) (buf : WriteMessage) : OpenRgbResult WriteMessage :=
  .ok ((((buf.write_u8 c.r).write_u8 c.g).write_u8 c.b).write_u8 0)

/-- Source: `DeserFromBuf for Color`: reads R, G, B and skips the fourth byte. -/
def deserialize (m : ReceivedMessage) :
    OpenRgbResult (Color × ReceivedMessage) := do
  let (r, m) ← m.read_u8
  let (g, m) ← m.read_u8
  let (b, m) ← m.read_u8
  let (_, m) ← m.read_u8
  .ok ({ r := r, g := g, b := b }, m)

end Color

/-! ## Strings (`protocol/data/implement/string.rs`)

A Rust `String`/`&str` is embedded as the list of its UTF-8 bytes; a `String`
value is valid when `utf8Valid` holds of those bytes.  `utf8Valid` implements
the UTF-8 well-formedness check performed by `String::from_utf8` (Rust std's
`run_utf8_validation`): ASCII, 2/3/4-byte sequences with continuation bytes in
`0x80..=0xBF`, rejecting overlong forms, surrogates and values above
`U+10FFFF`. -/

/-- A byte in `0x80..=0xBF` (a UTF-8 continuation byte). -/
def utf8Cont (b : Nat) : Bool := 128 ≤ b && b ≤ 191

/-- UTF-8 well-formedness of a byte sequence, as validated by
`String::from_utf8`. -/
def utf8Valid : List Nat → Bool
  | [] => true
  | b :: rest =>
    if b ≤ 127 then utf8Valid rest
    else if 194 ≤ b && b ≤ 223 then
      match rest with
      | c1 :: r => utf8Cont c1 && utf8Valid r
      | [] => false
    else if b = 224 then
      match rest with
      | c1 :: c2 :: r => (160 ≤ c1 && c1 ≤ 191) && utf8Cont c2 && utf8Valid r
      | _ => false
    else if 225 ≤ b && b ≤ 236 then
      match rest with
      | c1 :: c2 :: r => utf8Cont c1 && utf8Cont c2 && utf8Valid r
      | _ => false
    else if b = 237 then
      match rest with
      | c1 :: c2 :: r => (128 ≤ c1 && c1 ≤ 159) && utf8Cont c2 && utf8Valid r
      | _ => false
    else if 238 ≤ b && b ≤ 239 then
      match rest with
      | c1 :: c2 :: r => utf8Cont c1 && utf8Cont c2 && utf8Valid r
      | _ => false
    else if b = 240 then
      match rest with
      | c1 :: c2 :: c3 :: r =>
          (144 ≤ c1 && c1 ≤ 191) && utf8Cont c2 && utf8Cont c3 && utf8Valid r
      | _ => false
    else if 241 ≤ b && b ≤ 243 then
      match rest with
      | c1 :: c2 :: c3 :: r =>
          utf8Cont c1 && utf8Cont c2 && utf8Cont c3 && utf8Valid r
      | _ => false
    else if b = 244 then
      match rest with
      | c1 :: c2 :: c3 :: r =>
          (128 ≤ c1 && c1 ≤ 143) && utf8Cont c2 && utf8Cont c3 && utf8Valid r
      | _ => false
    else false

/-- Source: `SerToBuf for RawString`: the raw bytes followed by a literal null byte,
with no length prefix. -/
def serializeRawString (s : List Nat) (buf : WriteMessage) :
    OpenRgbResult WriteMessage :=
  .ok ((buf.extend_from_slice s).write_u8 0)

/-- Source: `SerToBuf for &str` (also used by `String`): writes
`self.len() as u16 + 1` as the `u16` length (wrapping exactly as the source's
cast-then-add does), then the `RawString` form. -/
def serializeStr (s : List Nat) (buf : WriteMessage) :
    OpenRgbResult WriteMessage :=
  serializeRawString s (buf.write_u16 (s.length % 65536 + 1))

/-- Source: `DeserFromBuf for String`: reads a `u16` length, reads exactly that many
bytes, pops the trailing null byte, and validates UTF-8. -/
def deserializeString (m : ReceivedMessage) :
    OpenRgbResult (List Nat × ReceivedMessage) := do
  let (len, m) ← m.read_u16
  let (bytes, m) ← m.read_exact len
  let bytes := bytes.dropLast
  if utf8Valid bytes then .ok (bytes, m)
  else .error (.ProtocolError "Failed decoding string as UTF-8")

/-! ## Sequences (`implement/vec.rs`, `implement/slice.rs`,
`implement/array.rs`) -/

/-- Source: `SerToBuf for Vec<T>`: writes `self.len() as u16` (a truncating cast,
kept explicit here as `% 65536`) followed by the elements in order. -/
def serializeVec (serT : α → WriteMessage → OpenRgbResult WriteMessage)
    (l : List α) (buf : WriteMessage) : OpenRgbResult WriteMessage :=
  l.foldlM (fun b t => serT t b) (buf.write_u16 (l.length % 65536))

/-- Source: `DeserFromBuf for Vec<T>`: reads a `u16` element count, then that many
elements. -/
def deserializeVec (deserT : ReceivedMessage → OpenRgbResult (α × ReceivedMessage))
    (m : ReceivedMessage) : OpenRgbResult (List α × ReceivedMessage) := do
  let (len, m) ← m.read_u16
  ReceivedMessage.read_n_values deserT len m

/-- Modelled from the spec: the `SerToBuf` impl for slices (the target of
`<[T; N]>::serialize`'s `self.as_slice().serialize(buf)` call) lives in the
crate's `serialize` module, which is not part of the source snapshot.  The
spec fixes the layout: a `u16` element count followed by the elements, the
same layout `Vec<T>` uses. -/
def serializeSlice (serT : α → WriteMessage → OpenRgbResult WriteMessage)
    (l : List α) (buf : WriteMessage) : OpenRgbResult WriteMessage :=
  serializeVec serT l buf

/-- Source: `SerToBuf for [T; N]`: forwards to the slice serializer. -/
def serializeArray (serT : α → WriteMessage → OpenRgbResult WriteMessage)
    (l : List α) (buf : WriteMessage) : OpenRgbResult WriteMessage :=
  serializeSlice serT l buf

/-- Source: `DeserFromBuf for [T; N]`: reads the `N` elements one after another.  No
count prefix is consumed (the source's loop deserializes straight into the
array, and its unit test reads `[u8; 3]` values back-to-back from a plain
six-byte buffer). -/
def deserializeArray (deserT : ReceivedMessage → OpenRgbResult (α × ReceivedMessage))
    (n : Nat) (m : ReceivedMessage) : OpenRgbResult (List α × ReceivedMessage) :=
  ReceivedMessage.read_n_values deserT n m

/-- The array decoder as the spec's words describe it — "decoding consumes a
matching count prefix before reading the N elements" — defined ONLY to compare
against `deserializeArray`, the decoder the source actually implements (which
reads no prefix). -/
def deserializeArrayClaimed
    (deserT : ReceivedMessage → OpenRgbResult (α × ReceivedMessage))
    (n : Nat) (m : ReceivedMessage) : OpenRgbResult (List α × ReceivedMessage) := do
  let (len, m) ← m.read_u16
  if len = n then ReceivedMessage.read_n_values deserT n m
  else .error (.ProtocolError "count prefix does not match array length")

/-- Modelled from the spec: `DeserFromBuf for u8` is provided by the crate's
missing `deserialize` module; the spec fixes fixed-width integers as
little-endian, which for one byte is exactly `ReceivedMessage::read_u8`.
The source's own array test (`test_deser_array`) exhibits this behaviour. -/
def deserialize_u8 (m : ReceivedMessage) : OpenRgbResult (Nat × ReceivedMessage) :=
  m.read_u8

/-- Modelled from the spec: `SerToBuf`/`DeserFromBuf` for `u32` are in the
crate's missing `serialize`/`deserialize` modules; the spec fixes fixed-width
integers as little-endian fixed width, i.e. `WriteMessage::write_u32` and
`ReceivedMessage::read_u32`. -/
def serialize_u32 (v : Nat) (buf : WriteMessage) : OpenRgbResult WriteMessage :=
  .ok (buf.write_u32 v)

/-- Modelled from the spec: see `serialize_u32`. -/
def deserialize_u32 (m : ReceivedMessage) : OpenRgbResult (Nat × ReceivedMessage) :=
  m.read_u32

/-- Two's-complement `u32` bit pattern of an `i32` value. -/
def i32Bits (v : Int) : Nat := (v % 4294967296).toNat

/-- Modelled from the spec: `SerToBuf for i32` (missing `serialize` module);
little-endian fixed width. -/
def serialize_i32 (v : Int) (buf : WriteMessage) : OpenRgbResult WriteMessage :=
  .ok (buf.write_u32 (i32Bits v))

/-- Modelled from the spec: `DeserFromBuf for i32` (missing `deserialize`
module); four little-endian bytes read back as a two's-complement value. -/
def deserialize_i32 (m : ReceivedMessage) : OpenRgbResult (Int × ReceivedMessage) := do
  let (raw, m) ← m.read_u32
  if raw < 2147483648 then .ok ((raw : Int), m)
  else .ok ((raw : Int) - 4294967296, m)

/-! ## Enumerations with explicit discriminants

`impl_enum_discriminant!` (in `protocol/data/mod.rs`) generates
`TryFrom<u32>` returning `ProtocolError` on an unknown discriminant, and
`From<&T> for u32` from the listed table.  The per-enum tables below are the
ones passed to the macro in the source. -/

/-- Source: `DeviceType` (`protocol/data/openrgb/device_type.rs`). -/
inductive DeviceType where
  | Motherboard | DRam | Gpu | Cooler | LEDStrip | Keyboard | Mouse
  | MouseMat | Headset | HeadsetStand | Gamepad | Light | Speaker
  | Virtual | Unknown
  deriving Repr, DecidableEq

namespace DeviceType

/-- Source: `u32::from(&DeviceType)` per the macro table (`Unknown: 14`). -/
def toU32 : DeviceType → Nat
  | .Motherboard => 0 | .DRam => 1 | .Gpu => 2 | .Cooler => 3
  | .LEDStrip => 4 | .Keyboard => 5 | .Mouse => 6 | .MouseMat => 7
  | .Headset => 8 | .HeadsetStand => 9 | .Gamepad => 10 | .Light => 11
  | .Speaker => 12 | .Virtual => 13 | .Unknown => 14

/-- Source: `DeviceType::try_from(u32)` per the macro table. -/
def tryFrom (v : Nat) : OpenRgbResult DeviceType :=
  if v = 0 then .ok .Motherboard
  else if v = 1 then .ok .DRam
  else if v = 2 then .ok .Gpu
  else if v = 3 then .ok .Cooler
  else if v = 4 then .ok .LEDStrip
  else if v = 5 then .ok .Keyboard
  else if v = 6 then .ok .Mouse
  else if v = 7 then .ok .MouseMat
  else if v = 8 then .ok .Headset
  else if v = 9 then .ok .HeadsetStand
  else if v = 10 then .ok .Gamepad
  else if v = 11 then .ok .Light
  else if v = 12 then .ok .Speaker
  else if v = 13 then .ok .Virtual
  else if v = 14 then .ok .Unknown
  else .error (.ProtocolError "unknown discriminant value for DeviceType")

/-- Source: `DeserFromBuf for DeviceType`: reads a `u32` and falls back to `Unknown`
on an unrecognized discriminant (`try_from(..).unwrap_or(Unknown)`). -/
def deserialize (m : ReceivedMessage) :
    OpenRgbResult (DeviceType × ReceivedMessage) := do
  let (raw, m) ← m.read_u32
  match tryFrom raw with
  | .ok t => .ok (t, m)
  | .error _ => .ok (.Unknown, m)

/-- Source: `SerToBuf for DeviceType`. -/
def serialize (t : DeviceType) (buf : WriteMessage) : OpenRgbResult WriteMessage :=
  .ok (buf.write_u32 t.toU32)

end DeviceType

/-- Source: `ZoneType` (`protocol/data/openrgb/zone_type.rs`). -/
inductive ZoneType where
  | Single | Linear | Matrix
  deriving Repr, DecidableEq

namespace ZoneType

/-- Source: `u32::from(&ZoneType)` per the macro table. -/
def toU32 : ZoneType → Nat
  | .Single => 0 | .Linear => 1 | .Matrix => 2

/-- Source: `ZoneType::try_from(u32)` per the macro table. -/
def tryFrom (v : Nat) : OpenRgbResult ZoneType :=
  if v = 0 then .ok .Single
  else if v = 1 then .ok .Linear
  else if v = 2 then .ok .Matrix
  else .error (.ProtocolError "unknown discriminant value for ZoneType")

/-- Source: `DeserFromBuf for ZoneType`: an unrecognized discriminant is a hard
`ProtocolError` ("unknown zone type"). -/
def deserialize (m : ReceivedMessage) :
    OpenRgbResult (ZoneType × ReceivedMessage) := do
  let (raw, m) ← m.read_u32
  match tryFrom raw with
  | .ok t => .ok (t, m)
  | .error _ => .error (.ProtocolError "unknown zone type")

/-- Source: `SerToBuf for ZoneType`. -/
def serialize (t : ZoneType) (buf : WriteMessage) : OpenRgbResult WriteMessage :=
  .ok (buf.write_u32 t.toU32)

end ZoneType

/-- Source: `ColorMode` (`protocol/data/openrgb/color_mode.rs`); discriminants 0-3
via the `Primitive` derive. -/
inductive ColorMode where
  | None | PerLED | ModeSpecific | Random
  deriving Repr, DecidableEq

namespace ColorMode

/-- Source: `*self as u32`. -/
def toU32 : ColorMode → Nat
  | .None => 0 | .PerLED => 1 | .ModeSpecific => 2 | .Random => 3

/-- Source: `ColorMode::from_u32`. -/
def from_u32 (v : Nat) : Option ColorMode :=
  if v = 0 then some .None
  else if v = 1 then some .PerLED
  else if v = 2 then some .ModeSpecific
  else if v = 3 then some .Random
  else none

/-- Source: `DeserFromBuf for ColorMode`: unrecognized discriminant is a hard
`ProtocolError` ("unknown color mode"). -/
def deserialize (m : ReceivedMessage) :
    OpenRgbResult (ColorMode × ReceivedMessage) := do
  let (raw, m) ← m.read_u32
  match from_u32 raw with
  | some t => .ok (t, m)
  | none => .error (.ProtocolError "unknown color mode")

/-- Source: `SerToBuf for ColorMode`. -/
def serialize (t : ColorMode) (buf : WriteMessage) : OpenRgbResult WriteMessage :=
  .ok (buf.write_u32 t.toU32)

end ColorMode

/-- Source: `Direction` (`protocol/data/openrgb/direction.rs`); discriminants 0-5 via
the `Primitive` derive. -/
inductive Direction where
  | Left | Right | Up | Down | Horizontal | Vertical
  deriving Repr, DecidableEq

namespace Direction

/-- Source: `*self as u32`. -/
def toU32 : Direction → Nat
  | .Left => 0 | .Right => 1 | .Up => 2 | .Down => 3
  | .Horizontal => 4 | .Vertical => 5

/-- Source: `Direction::from_u32`. -/
def from_u32 (v : Nat) : Option Direction :=
  if v = 0 then some .Left
  else if v = 1 then some .Right
  else if v = 2 then some .Up
  else if v = 3 then some .Down
  else if v = 4 then some .Horizontal
  else if v = 5 then some .Vertical
  else none

/-- Source: `TryFromStream for Direction` restricted to a byte-list stream: reads a
little-endian `u32` and rejects an unrecognized discriminant with a hard
`ProtocolError` ("unknown direction").  (The stream-side `u32` read is
`read_u32_le`, the same four little-endian bytes as the buffer path.) -/
def try_read (buf : List Nat) : OpenRgbResult (Direction × List Nat) :=
  match buf with
  | b0 :: b1 :: b2 :: b3 :: rest =>
    match from_u32 (fromLE4 b0 b1 b2 b3) with
    | some d => .ok (d, rest)
    | none => .error (.ProtocolError "unknown direction")
  | _ => .error (.IoError "early eof")

end Direction

/-- Source: `PacketId` (`protocol/packet.rs`). -/
inductive PacketId where
  | RequestControllerCount | RequestControllerData | RequestProtocolVersion
  | SetClientName | DeviceListUpdated | RequestProfileList
  | RequestSaveProfile | RequestLoadProfile | RequestDeleteProfile
  | RGBControllerResizeZone | RgbControllerClearSegments
  | RGBControllerAddSegment | RGBControllerUpdateLeds
  | RGBControllerUpdateZoneLeds | RGBControllerUpdateSingleLed
  | RGBControllerSetCustomMode | RGBControllerUpdateMode
  | RGBControllerSaveMode
  deriving Repr, DecidableEq

namespace PacketId

/-- Source: `u32::from(&PacketId)` per the macro table. -/
def toU32 : PacketId → Nat
  | .RequestControllerCount => 0
  | .RequestControllerData => 1
  | .RequestProtocolVersion => 40
  | .SetClientName => 50
  | .DeviceListUpdated => 100
  | .RequestProfileList => 150
  | .RequestSaveProfile => 151
  | .RequestLoadProfile => 152
  | .RequestDeleteProfile => 153
  | .RGBControllerResizeZone => 1000
  | .RgbControllerClearSegments => 1001
  | .RGBControllerAddSegment => 1002
  | .RGBControllerUpdateLeds => 1050
  | .RGBControllerUpdateZoneLeds => 1051
  | .RGBControllerUpdateSingleLed => 1052
  | .RGBControllerSetCustomMode => 1100
  | .RGBControllerUpdateMode => 1101
  | .RGBControllerSaveMode => 1102

/-- Source: `PacketId::try_from(u32)` per the macro table. -/
def tryFrom (v : Nat) : OpenRgbResult PacketId :=
  if v = 0 then .ok .RequestControllerCount
  else if v = 1 then .ok .RequestControllerData
  else if v = 40 then .ok .RequestProtocolVersion
  else if v = 50 then .ok .SetClientName
  else if v = 100 then .ok .DeviceListUpdated
  else if v = 150 then .ok .RequestProfileList
  else if v = 151 then .ok .RequestSaveProfile
  else if v = 152 then .ok .RequestLoadProfile
  else if v = 153 then .ok .RequestDeleteProfile
  else if v = 1000 then .ok .RGBControllerResizeZone
  else if v = 1001 then .ok .RgbControllerClearSegments
  else if v = 1002 then .ok .RGBControllerAddSegment
  else if v = 1050 then .ok .RGBControllerUpdateLeds
  else if v = 1051 then .ok .RGBControllerUpdateZoneLeds
  else if v = 1052 then .ok .RGBControllerUpdateSingleLed
  else if v = 1100 then .ok .RGBControllerSetCustomMode
  else if v = 1101 then .ok .RGBControllerUpdateMode
  else if v = 1102 then .ok .RGBControllerSaveMode
  else .error (.ProtocolError "unknown discriminant value for PacketId")

/-- Source: `DeserFromBuf for PacketId`: reads a `u32` and propagates the macro's
`ProtocolError` on an unrecognized discriminant. -/
def deserialize (m : ReceivedMessage) :
    OpenRgbResult (PacketId × ReceivedMessage) := do
  let (raw, m) ← m.read_u32
  match tryFrom raw with
  | .ok t => .ok (t, m)
  | .error e => .error e

/-- Source: `SerToBuf for PacketId`. -/
def serialize (t : PacketId) (buf : WriteMessage) : OpenRgbResult WriteMessage :=
  .ok (buf.write_u32 t.toU32)

end PacketId

/-! ## `ProtocolOption` (`protocol/data/protocol_option.rs`) -/

/-- Source: `ProtocolOption<VER, T>`: a value that only exists from protocol version
`VER` onward. -/
inductive ProtocolOption (T : Type) where
  | some (t : T)
  | unsupportedVersion
  deriving Repr, DecidableEq

namespace ProtocolOption

/-- Source: `SerToBuf for ProtocolOption<VER, T>`: writes nothing below `VER`,
otherwise serializes the contained value (or nothing for the
`UnsupportedVersion` marker). -/
def serialize (VER : Nat) (serT : T → WriteMessage → OpenRgbResult WriteMessage)
    (v : ProtocolOption T) (buf : WriteMessage) : OpenRgbResult WriteMessage :=
  if buf.protocol_version < VER then .ok buf
  else
    match v with
    | .some t => serT t buf
    | .unsupportedVersion => .ok buf

/-- Source: `DeserFromBuf for ProtocolOption<VER, T>`: consumes nothing and yields
`UnsupportedVersion` below `VER`, otherwise deserializes a plain `T`. -/
def deserialize (VER : Nat)
    (deserT : ReceivedMessage → OpenRgbResult (T × ReceivedMessage))
    (m : ReceivedMessage) : OpenRgbResult (ProtocolOption T × ReceivedMessage) :=
  if m.protocol_version < VER then .ok (.unsupportedVersion, m)
  else do
    let (t, m) ← deserT m
    .ok (.some t, m)

/-- Source: `Writable::size for ProtocolOption<VER, T>`. -/
def size (sizeT : T → Nat) : ProtocolOption T → Nat
  | .some t => sizeT t
  | .unsupportedVersion => 0

end ProtocolOption

/-! ## `SegmentData` (`protocol/data/openrgb/segment.rs`) -/

/-- Source: `SegmentData`. -/
structure SegmentData where
  name : List Nat
  seg_type : Int
  start_idx : Nat
  led_count : Nat
  deriving Repr, DecidableEq

namespace SegmentData

/-- Source: `SerToBuf for SegmentData`: hard error below protocol version 4,
otherwise name, type, start index, LED count. -/
def serialize (s : SegmentData) (buf : WriteMessage) : OpenRgbResult WriteMessage :=
  if buf.protocol_version < 4 then
    .error (.ProtocolError "SegmentData is not supported in protocol version < 4")
  else do
    let buf ← serializeStr s.name buf
    let buf ← serialize_i32 s.seg_type buf
    let buf ← serialize_u32 s.start_idx buf
    let buf ← serialize_u32 s.led_count buf
    .ok buf

/-- Source: `DeserFromBuf for SegmentData`: hard error below protocol version 4. -/
def deserialize (m : ReceivedMessage) :
    OpenRgbResult (SegmentData × ReceivedMessage) :=
  if m.protocol_version < 4 then
    .error (.ProtocolError "SegmentData is not supported in protocol version < 4")
  else do
    let (name, m) ← deserializeString m
    let (seg_type, m) ← deserialize_i32 m
    let (start_idx, m) ← deserialize_u32 m
    let (led_count, m) ← deserialize_u32 m
    .ok ({ name := name, seg_type := seg_type, start_idx := start_idx,
           led_count := led_count }, m)

end SegmentData

/-! ## The stream-write (`Writable`) path

`Writable::try_write` writes to the async stream and returns the number of
bytes written.  The embedding returns the byte sequence written (its length is
the count the source returns). -/

/-- Source: `Writable for u32` (`implement/primitive.rs`): `write_u32_le`. -/
def u32_try_write (v : Nat) : OpenRgbResult (List Nat) := .ok (toLE4 v)

/-- Source: `Writable for i32`: `write_i32_le`. -/
def i32_try_write (v : Int) : OpenRgbResult (List Nat) := .ok (toLE4 (i32Bits v))

/-- Source: `Writable for &str` (`implement/string.rs`): `(len + 1) as u16` as two
little-endian bytes, then the bytes, then the null terminator. -/
def str_try_write (s : List Nat) : OpenRgbResult (List Nat) :=
  .ok (toLE2 (s.length + 1) ++ s ++ [0])

/-- Source: `Writable::size for &str`: length prefix + bytes + null terminator. -/
def str_size (s : List Nat) : Nat := 2 + s.length + 1

/-- Source: `Writable for Color` (`protocol/data/color.rs`): R, G, B, zero pad. -/
def color_try_write (c : Color) : OpenRgbResult (List Nat) :=
  .ok [c.r % 256, c.g % 256, c.b % 256, 0]

/-- Source: `Writable::size for Color`: always four bytes. -/
def color_size : Nat := 4

/-- Source: `Writable for FlagSet<ModeFlag>` (`openrgb/mode_flag.rs`): the OR'd bits
as one `u32`. -/
def flags_try_write (bits : Nat) : OpenRgbResult (List Nat) := .ok (toLE4 bits)

/-- Source: `Writable for Direction`: `*self as u32`. -/
def direction_try_write (d : Direction) : OpenRgbResult (List Nat) :=
  .ok (toLE4 d.toU32)

/-- Source: `Writable for ColorMode`: `*self as u32`. -/
def colorMode_try_write (c : ColorMode) : OpenRgbResult (List Nat) :=
  .ok (toLE4 c.toU32)

/-- Source: `Writable for &[T]` (`implement/slice.rs`): `u16::try_from(len)` fails
with a `ProtocolError` when the element count exceeds `u16::MAX`; otherwise
the `u16` count is written followed by each element. -/
def slice_try_write (elemW : α → OpenRgbResult (List Nat)) (l : List α) :
    OpenRgbResult (List Nat) :=
  if l.length ≤ 65535 then do
    let parts ← l.mapM elemW
    .ok (toLE2 l.length ++ parts.flatten)
  else .error (.ProtocolError "Slice is too large to encode")

/-- Source: `Writable::size for &[T]` (and `Vec<T>`): the `u16` prefix plus the sum
of the element sizes. -/
def slice_size (elemSize : α → Nat) (l : List α) : Nat :=
  2 + (l.map elemSize).sum

/-- Modelled from the spec: `WritableStream::write_value_min_version` is in
the crate's missing `serialize` module; per the spec, fields gated on a
minimum protocol version are written as plain values at or above that version
and contribute zero bytes below it. -/
def write_value_min_version (w : OpenRgbResult (List Nat))
    (minVer streamVer : Nat) : OpenRgbResult (List Nat) :=
  if streamVer < minVer then .ok [] else w

/-- Outcome of `WritableStream::write_value` (`protocol/stream.rs`): the
returned count, a propagated error from the inner `try_write`, or the
`assert!` firing. -/
inductive WriteOutcome where
  | ok (n : Nat)
  | err (e : OpenRgbError)
  | panicked (msg : String)
  deriving Repr, DecidableEq

/-- Source: `WritableStream::write_value`: runs `try_write`, then asserts the byte
count equals the value's pre-computed `size()`.  A disagreement trips the
assertion (process abort), it is never surfaced as an `OpenRgbError`. -/
def write_value (size : Nat) (tw : OpenRgbResult (List Nat)) : WriteOutcome :=
  match tw with
  | .error e => .err e
  | .ok bs => if bs.length = size then .ok bs.length else .panicked "size mismatch"

/-! ## `ModeData` (`protocol/data/openrgb/mode.rs`) -/

/-- Source: `ModeData`.  `flags` is the raw `u32` bit set; `name` is the UTF-8 byte
list of the mode name. -/
structure ModeData where
  name : List Nat
  value : Int
  flags : Nat
  speed_min : Option Nat
  speed_max : Option Nat
  speed : Option Nat
  brightness_min : Option Nat
  brightness_max : Option Nat
  brightness : Option Nat
  color_mode : Option ColorMode
  colors : List Color
  colors_min : Option Nat
  colors_max : Option Nat
  direction : Option Direction
  index : Nat
  protocol_version : Nat
  deriving Repr, DecidableEq

namespace ModeData

/-- Source: `ModeData::size`: the brightness triple is counted only when the mode's
stored `protocol_version` field is at least 3. -/
def size (m : ModeData) : Nat :=
  str_size m.name + 4 + 4
  + 4 + 4
  + (if 3 ≤ m.protocol_version then 4 + 4 + 4 else 0)
  + 4 + 4 + 4 + 4 + 4
  + slice_size (fun _ => color_size) m.colors

/-- Source: `ModeData::try_write` against a stream negotiated at version
`streamVer`: name, value, flags, speed min/max, the version-gated brightness
triple, colors min/max, speed, direction, color mode, colors.  Absent
optional fields are written as their `Default` value. -/
def try_write (m : ModeData) (streamVer : Nat) : OpenRgbResult (List Nat) := do
  let b1 ← str_try_write m.name
  let b2 ← i32_try_write m.value
  let b3 ← flags_try_write m.flags
  let b4 ← u32_try_write (m.speed_min.getD 0)
  let b5 ← u32_try_write (m.speed_max.getD 0)
  let b6 ← write_value_min_version (u32_try_write (m.brightness_min.getD 0)) 3 streamVer
  let b7 ← write_value_min_version (u32_try_write (m.brightness_max.getD 0)) 3 streamVer
  let b8 ← write_value_min_version (u32_try_write (m.brightness.getD 0)) 3 streamVer
  let b9 ← u32_try_write (m.colors_min.getD 0)
  let b10 ← u32_try_write (m.colors_max.getD 0)
  let b11 ← u32_try_write (m.speed.getD 0)
  let b12 ← direction_try_write (m.direction.getD .Left)
  let b13 ← colorMode_try_write (m.color_mode.getD .None)
  let b14 ← slice_try_write color_try_write m.colors
  .ok (b1 ++ b2 ++ b3 ++ b4 ++ b5 ++ b6 ++ b7 ++ b8 ++ b9 ++ b10 ++ b11
       ++ b12 ++ b13 ++ b14)

end ModeData

/-! ## Protocol session (`protocol/mod.rs`) -/

/-- The negotiated protocol version computed by `OpenRgbProtocol::new`:
`DEFAULT_PROTOCOL.min(req_protocol)`, where `req_protocol` is the version the
server advertised in its `RequestProtocolVersion` reply. -/
def negotiate (server_version : Nat) : Nat :=
  Nat.min DEFAULT_PROTOCOL server_version

/-- A negotiated session: the fixed `protocol_id` plus the bytes written to
the transport so far. -/
structure Session where
  protocol_id : Nat
  written : List Nat
  deriving Repr, DecidableEq

/-- Source: `OpenRgbProtocol::check_protocol_version`: fails with
`UnsupportedOperation` carrying the negotiated and required versions when the
negotiated version is below the operation's minimum. -/
def check_protocol_version (s : Session) (mi : Nat) (msg : String) :
    OpenRgbResult Unit :=
  if s.protocol_id < mi then
    .error (.UnsupportedOperation msg s.protocol_id mi)
  else .ok ()

/-- Source: `OpenRgbProtocol::save_mode`: the version gate (minimum 3) runs before
`write_packet`, so on failure nothing reaches the transport.  The serialized
packet bytes are abstracted as `payload` (their exact contents are irrelevant
to the gating behaviour). -/
def save_mode (s : Session) (payload : List Nat) :
    OpenRgbResult Unit × Session :=
  match check_protocol_version s 3 "Save mode" with
  | .error e => (.error e, s)
  | .ok _ => (.ok (), { s with written := s.written ++ payload })

/-! ## Lemmas about the cursor primitives -/

namespace ReceivedMessage

theorem length_available_buf (m : ReceivedMessage) :
    m.available_buf.length = m.buf.length - m.idx := by
  simp [available_buf]

theorem available_buf_idx_add (m : ReceivedMessage) (k : Nat) :
    ReceivedMessage.available_buf { m with idx := m.idx + k } =
      m.available_buf.drop k := by
  simp [available_buf, List.drop_drop, Nat.add_comm]

theorem read_u8_cons (m : ReceivedMessage) (b : Nat) (t : List Nat)
    (h : m.available_buf = b :: t) :
    m.read_u8 = .ok (b, { m with idx := m.idx + 1 }) := by
  simp [read_u8, h]

theorem read_u16_cons (m : ReceivedMessage) (b0 b1 : Nat) (t : List Nat)
    (h : m.available_buf = b0 :: b1 :: t) :
    m.read_u16 = .ok (fromLE2 b0 b1, { m with idx := m.idx + 2 }) := by
  simp [read_u16, h]

theorem read_u32_cons (m : ReceivedMessage) (b0 b1 b2 b3 : Nat) (t : List Nat)
    (h : m.available_buf = b0 :: b1 :: b2 :: b3 :: t) :
    m.read_u32 = .ok (fromLE4 b0 b1 b2 b3, { m with idx := m.idx + 4 }) := by
  simp [read_u32, h]

end ReceivedMessage

theorem prefix_split {e1 e2 l : List Nat} (h : (e1 ++ e2) <+: l) :
    e1 <+: l ∧ e2 <+: l.drop e1.length := by
  obtain ⟨t, ht⟩ := h
  constructor
  · exact ⟨e2 ++ t, by simp [← ht]⟩
  · refine ⟨t, ?_⟩
    rw [← ht, List.append_assoc, List.drop_left]

/-- Claim C7 target lemma shapes are derived from these. -/
theorem read_u8_at_front {m : ReceivedMessage} {b : Nat}
    (h : [b] <+: m.available_buf) :
    m.read_u8 = .ok (b, { m with idx := m.idx + 1 }) := by
  obtain ⟨t, ht⟩ := h
  exact m.read_u8_cons b t ht.symm

theorem read_u16_at_front {m : ReceivedMessage} {x : Nat}
    (h : toLE2 x <+: m.available_buf) (hx : x < 65536) :
    m.read_u16 = .ok (x, { m with idx := m.idx + 2 }) := by
  obtain ⟨t, ht⟩ := h
  rw [m.read_u16_cons (x % 256) (x / 256 % 256) t (by simpa [toLE2] using ht.symm)]
  have : fromLE2 (x % 256) (x / 256 % 256) = x := by
    simp only [fromLE2]
    omega
  rw [this]

theorem read_u32_at_front {m : ReceivedMessage} {x : Nat}
    (h : toLE4 x <+: m.available_buf) (hx : x < 4294967296) :
    m.read_u32 = .ok (x, { m with idx := m.idx + 4 }) := by
  obtain ⟨t, ht⟩ := h
  rw [m.read_u32_cons (x % 256) (x / 256 % 256) (x / 65536 % 256)
        (x / 16777216 % 256) t (by simpa [toLE4] using ht.symm)]
  have : fromLE4 (x % 256) (x / 256 % 256) (x / 65536 % 256)
      (x / 16777216 % 256) = x := by
    simp only [fromLE4]
    omega
  rw [this]

theorem read_exact_at_front {m : ReceivedMessage} {bs : List Nat}
    (h : bs <+: m.available_buf) :
    m.read_exact bs.length = .ok (bs, { m with idx := m.idx + bs.length }) := by
  obtain ⟨t, ht⟩ := h
  rw [ReceivedMessage.read_exact, if_pos (by rw [← ht]; simp)]
  congr 1
  rw [← ht, List.take_left]

/-- C7: on the read-side message cursor, every primitive read
(`read_u8`, `read_u16`, `read_u32`, the raw `Read` impl, and `read_exact`)
fails with a decode error naming the short read when fewer bytes remain than
requested — it never panics — and whenever a read succeeds the cursor offset
still does not exceed the buffer length. -/
theorem C7_read_cursor_never_overruns (m : ReceivedMessage)
    (h : m.idx ≤ m.buf.length) :
    (m.buf.length - m.idx < 1 →
        m.read_u8 = .error (.ProtocolError "Not enough bytes to read u8")) ∧
    (∀ v m2, m.read_u8 = .ok (v, m2) →
        m2.buf = m.buf ∧ m2.idx ≤ m2.buf.length) ∧
    (m.buf.length - m.idx < 2 →
        m.read_u16 = .error (.ProtocolError "Not enough bytes to read u16")) ∧
    (∀ v m2, m.read_u16 = .ok (v, m2) →
        m2.buf = m.buf ∧ m2.idx ≤ m2.buf.length) ∧
    (m.buf.length - m.idx < 4 →
        m.read_u32 = .error (.ProtocolError "Not enough bytes to read u16")) ∧
    (∀ v m2, m.read_u32 = .ok (v, m2) →
        m2.buf = m.buf ∧ m2.idx ≤ m2.buf.length) ∧
    (∀ n, ((m.read n).2.2).buf = m.buf ∧ ((m.read n).2.2).idx ≤ m.buf.length) ∧
    (∀ n, m.buf.length - m.idx < n →
        m.read_exact n = .error (.IoError "failed to fill whole buffer")) ∧
    (∀ n bs m2, m.read_exact n = .ok (bs, m2) →
        m2.buf = m.buf ∧ m2.idx ≤ m2.buf.length) := by
  have hlen := m.length_available_buf
  refine ⟨?_, ?_, ?_, ?_, ?_, ?_, ?_, ?_, ?_⟩
  · intro hs
    have hnil : m.available_buf = [] := by
      cases hv : m.available_buf with
      | nil => rfl
      | cons b t => rw [hv] at hlen; simp at hlen; omega
    simp [ReceivedMessage.read_u8, hnil]
  · intro v m2 hok
    cases hv : m.available_buf with
    | nil => simp [ReceivedMessage.read_u8, hv] at hok
    | cons b t =>
      simp only [ReceivedMessage.read_u8, hv, Except.ok.injEq, Prod.mk.injEq] at hok
      obtain ⟨-, rfl⟩ := hok
      rw [hv] at hlen
      simp only [List.length_cons] at hlen
      exact ⟨rfl, show m.idx + 1 ≤ m.buf.length by omega⟩
  · intro hs
    have : ∀ b0 b1 t, m.available_buf ≠ b0 :: b1 :: t := by
      intro b0 b1 t hv
      rw [hv] at hlen; simp at hlen; omega
    cases hv : m.available_buf with
    | nil => simp [ReceivedMessage.read_u16, hv]
    | cons b t =>
      cases t with
      | nil => simp [ReceivedMessage.read_u16, hv]
      | cons b1 t1 => exact absurd hv (this b b1 t1)
  · intro v m2 hok
    cases hv : m.available_buf with
    | nil => simp [ReceivedMessage.read_u16, hv] at hok
    | cons b t =>
      cases t with
      | nil => simp [ReceivedMessage.read_u16, hv] at hok
      | cons b1 t1 =>
        simp only [ReceivedMessage.read_u16, hv, Except.ok.injEq,
          Prod.mk.injEq] at hok
        obtain ⟨-, rfl⟩ := hok
        rw [hv] at hlen
        simp only [List.length_cons] at hlen
        exact ⟨rfl, show m.idx + 2 ≤ m.buf.length by omega⟩
  · intro hs
    have hne : ∀ b0 b1 b2 b3 t, m.available_buf ≠ b0 :: b1 :: b2 :: b3 :: t := by
      intro b0 b1 b2 b3 t hv
      rw [hv] at hlen; simp at hlen; omega
    cases hv : m.available_buf with
    | nil => simp [ReceivedMessage.read_u32, hv]
    | cons b t =>
      cases t with
      | nil => simp [ReceivedMessage.read_u32, hv]
      | cons b1 t1 =>
        cases t1 with
        | nil => simp [ReceivedMessage.read_u32, hv]
        | cons b2 t2 =>
          cases t2 with
          | nil => simp [ReceivedMessage.read_u32, hv]
          | cons b3 t3 => exact absurd hv (hne b b1 b2 b3 t3)
  · intro v m2 hok
    cases hv : m.available_buf with
    | nil => simp [ReceivedMessage.read_u32, hv] at hok
    | cons b t =>
      cases t with
      | nil => simp [ReceivedMessage.read_u32, hv] at hok
      | cons b1 t1 =>
        cases t1 with
        | nil => simp [ReceivedMessage.read_u32, hv] at hok
        | cons b2 t2 =>
          cases t2 with
          | nil => simp [ReceivedMessage.read_u32, hv] at hok
          | cons b3 t3 =>
            simp only [ReceivedMessage.read_u32, hv, Except.ok.injEq,
              Prod.mk.injEq] at hok
            obtain ⟨-, rfl⟩ := hok
            rw [hv] at hlen
            simp only [List.length_cons] at hlen
            exact ⟨rfl, show m.idx + 4 ≤ m.buf.length by omega⟩
  · intro n
    refine ⟨rfl, ?_⟩
    show m.idx + min n (m.buf.drop m.idx).length ≤ m.buf.length
    have : (m.buf.drop m.idx).length = m.buf.length - m.idx := by simp
    omega
  · intro n hn
    rw [ReceivedMessage.read_exact, if_neg (by omega)]
  · intro n bs m2 hok
    rw [ReceivedMessage.read_exact] at hok
    by_cases hc : n ≤ m.available_buf.length
    · rw [if_pos hc] at hok
      simp only [Except.ok.injEq, Prod.mk.injEq] at hok
      obtain ⟨-, rfl⟩ := hok
      rw [m.length_available_buf] at hc
      exact ⟨rfl, show m.idx + n ≤ m.buf.length by omega⟩
    · rw [if_neg hc] at hok
      cases hok

/-- Witness for C7 at a concrete cursor: index 1 into a two-byte buffer, so a
`u16` read is one byte short and errors. -/
theorem C7_witness :
    (ReceivedMessage.mk 5 [1, 2] 1).idx ≤ (ReceivedMessage.mk 5 [1, 2] 1).buf.length ∧
    (ReceivedMessage.mk 5 [1, 2] 1).read_u16 =
      .error (.ProtocolError "Not enough bytes to read u16") :=
  ⟨by decide,
   (C7_read_cursor_never_overruns ⟨5, [1, 2], 1⟩ (by decide)).2.2.1 (by decide)⟩

theorem ok_bind {α β : Type} (a : α) (f : α → OpenRgbResult β) :
    (Except.ok a >>= f) = f a := rfl

/-- Unfolds `deserializeString` once its two reads are known. -/
theorem deserializeString_step {m : ReceivedMessage} {len : Nat}
    {m1 : ReceivedMessage} {bs : List Nat} {m2 : ReceivedMessage}
    (h1 : m.read_u16 = .ok (len, m1)) (h2 : m1.read_exact len = .ok (bs, m2)) :
    deserializeString m =
      if utf8Valid bs.dropLast then .ok (bs.dropLast, m2)
      else .error (.ProtocolError "Failed decoding string as UTF-8") := by
  simp only [deserializeString, h1, ok_bind, h2]

/-- C10: decoding a `String` from a buffer whose `u16` length prefix is 0
succeeds with the empty string: no payload bytes are consumed (the cursor
advances only past the two prefix bytes), the null-terminator pop is a no-op
on the empty byte vector, and no error is raised. -/
theorem C10_zero_length_string_decodes_empty (V : Nat) (rest : List Nat) :
    deserializeString ⟨V, 0 :: 0 :: rest, 0⟩ =
      .ok ([], ⟨V, 0 :: 0 :: rest, 2⟩) := by
  have h16 : (⟨V, 0 :: 0 :: rest, 0⟩ : ReceivedMessage).read_u16 =
      .ok (0, ⟨V, 0 :: 0 :: rest, 2⟩) := by
    have h := ReceivedMessage.read_u16_cons ⟨V, 0 :: 0 :: rest, 0⟩ 0 0 rest
      (by simp [ReceivedMessage.available_buf])
    simpa [fromLE2] using h
  have hex : (⟨V, 0 :: 0 :: rest, 2⟩ : ReceivedMessage).read_exact 0 =
      .ok ([], ⟨V, 0 :: 0 :: rest, 2⟩) := by
    simp [ReceivedMessage.read_exact]
  rw [deserializeString_step h16 hex]
  rw [if_pos (show utf8Valid [].dropLast = true from rfl)]
  rfl

/-- C5: a string encodes as a `u16` length equal to its byte length plus
one (the counted null terminator), then its UTF-8 bytes, then a literal zero
byte; `"test"` encodes to `u16(5)` followed by `b"test\x00"`; decoding reads
exactly the prefixed number of bytes, drops the trailing null, and fails with
a `ProtocolError` when the remaining bytes are not valid UTF-8. -/
theorem C5_string_codec (V len : Nat) (s payload rest : List Nat)
    (buf : WriteMessage) (hs : s.length + 1 < 65536)
    (hplen : payload.length = len) (hlen : len < 65536) :
    serializeStr s buf =
      .ok { buf with buf := buf.buf ++ toLE2 (s.length + 1) ++ s ++ [0] } ∧
    serializeStr [116, 101, 115, 116] (WriteMessage.new V) =
      .ok ⟨V, [5, 0, 116, 101, 115, 116, 0]⟩ ∧
    (utf8Valid payload.dropLast = true →
      deserializeString ⟨V, toLE2 len ++ payload ++ rest, 0⟩ =
        .ok (payload.dropLast, ⟨V, toLE2 len ++ payload ++ rest, 2 + len⟩)) ∧
    (utf8Valid payload.dropLast = false →
      deserializeString ⟨V, toLE2 len ++ payload ++ rest, 0⟩ =
        .error (.ProtocolError "Failed decoding string as UTF-8")) := by
  have hmod : s.length % 65536 = s.length := Nat.mod_eq_of_lt (by omega)
  have hser : serializeStr s buf =
      .ok { buf with buf := buf.buf ++ toLE2 (s.length + 1) ++ s ++ [0] } := by
    simp [serializeStr, serializeRawString, WriteMessage.write_u16,
      WriteMessage.write_u8, WriteMessage.extend_from_slice, hmod]
  have h1 : (⟨V, toLE2 len ++ payload ++ rest, 0⟩ : ReceivedMessage).read_u16 =
      .ok (len, { protocol_version := V, buf := toLE2 len ++ payload ++ rest,
                  idx := 0 + 2 }) := by
    refine read_u16_at_front ?_ hlen
    show toLE2 len <+: List.drop 0 (toLE2 len ++ payload ++ rest)
    simp only [List.drop_zero, List.append_assoc]
    exact List.prefix_append (toLE2 len) (payload ++ rest)
  have havail : ReceivedMessage.available_buf
      { protocol_version := V, buf := toLE2 len ++ payload ++ rest,
        idx := 0 + 2 } = payload ++ rest := by
    simp [ReceivedMessage.available_buf, toLE2]
  have h2 : ReceivedMessage.read_exact
      { protocol_version := V, buf := toLE2 len ++ payload ++ rest,
        idx := 0 + 2 } len =
      .ok (payload, { protocol_version := V, buf := toLE2 len ++ payload ++ rest,
                      idx := 0 + 2 + len }) := by
    have h := @read_exact_at_front ⟨V, toLE2 len ++ payload ++ rest, 0 + 2⟩
      payload (by rw [havail]; exact List.prefix_append payload rest)
    rw [hplen] at h
    exact h
  have hstep := deserializeString_step h1 h2
  refine ⟨hser, ?_, ?_, ?_⟩
  · rfl
  · intro hv
    rw [hstep, if_pos hv]
  · intro hv
    rw [hstep, if_neg (by rw [hv]; exact Bool.false_ne_true)]

/-- Witness for C5: the `"test"` vector decodes back to `"test"` and all
hypotheses hold at the concrete inputs. -/
theorem C5_witness :
    ([116, 101, 115, 116] : List Nat).length + 1 < 65536 ∧
    ([116, 101, 115, 116, 0] : List Nat).length = 5 ∧ (5 : Nat) < 65536 ∧
    deserializeString ⟨5, toLE2 5 ++ [116, 101, 115, 116, 0] ++ [], 0⟩ =
      .ok (([116, 101, 115, 116, 0] : List Nat).dropLast,
           ⟨5, toLE2 5 ++ [116, 101, 115, 116, 0] ++ [], 2 + 5⟩) := by
  refine ⟨by decide, by decide, by decide, ?_⟩
  exact (C5_string_codec 5 5 [116, 101, 115, 116] [116, 101, 115, 116, 0] []
    (WriteMessage.new 5) (by decide) (by decide) (by decide)).2.2.1 (by decide)

/-- C2: the negotiated session version is the minimum of the client's
maximum supported version (`DEFAULT_PROTOCOL = 5`) and the server's
advertised version — in particular a server advertising 2 yields session
version 2 — and on such a session the version-3-gated `save_mode` fails with
`UnsupportedOperation` carrying the required version 3 and the negotiated
version 2, leaving the transport untouched (no bytes written). -/
theorem C2_negotiation_and_save_mode_gate (server_version : Nat) (s : Session)
    (payload : List Nat) (hs : s.protocol_id = 2) :
    negotiate server_version = Nat.min 5 server_version ∧
    negotiate 2 = 2 ∧
    save_mode s payload = (.error (.UnsupportedOperation "Save mode" 2 3), s) := by
  refine ⟨rfl, rfl, ?_⟩
  simp [save_mode, check_protocol_version, hs]

/-- Witness for C2: a session negotiated at version 2 rejects `save_mode`
without writing anything. -/
theorem C2_witness :
    (Session.mk 2 []).protocol_id = 2 ∧
    save_mode ⟨2, []⟩ [1, 2, 3] =
      (.error (.UnsupportedOperation "Save mode" 2 3), ⟨2, []⟩) :=
  ⟨rfl, (C2_negotiation_and_save_mode_gate 2 ⟨2, []⟩ [1, 2, 3] rfl).2.2⟩

/-- C3: for every version parameter `VER` and payload type `T`,
serializing a `ProtocolOption<VER, T>` into a buffer below version `VER`
writes zero bytes, deserializing from such a buffer consumes zero bytes and
yields the `UnsupportedVersion` marker, and at any version at least `VER` the
wrapper serializes and deserializes exactly as a plain `T`. -/
theorem C3_protocol_option_gating (T : Type) (VER : Nat)
    (serT : T → WriteMessage → OpenRgbResult WriteMessage)
    (deserT : ReceivedMessage → OpenRgbResult (T × ReceivedMessage))
    (v : ProtocolOption T) (t : T) (buf : WriteMessage) (m : ReceivedMessage) :
    (buf.protocol_version < VER →
      ProtocolOption.serialize VER serT v buf = .ok buf) ∧
    (m.protocol_version < VER →
      ProtocolOption.deserialize VER deserT m = .ok (.unsupportedVersion, m)) ∧
    (VER ≤ buf.protocol_version →
      ProtocolOption.serialize VER serT (.some t) buf = serT t buf) ∧
    (VER ≤ m.protocol_version →
      ProtocolOption.deserialize VER deserT m =
        (deserT m).map (fun p => (ProtocolOption.some p.1, p.2))) := by
  refine ⟨?_, ?_, ?_, ?_⟩
  · intro h
    cases v <;> simp [ProtocolOption.serialize, h]
  · intro h
    simp [ProtocolOption.deserialize, h]
  · intro h
    simp [ProtocolOption.serialize, Nat.not_lt.mpr h]
  · intro h
    rw [ProtocolOption.deserialize, if_neg (Nat.not_lt.mpr h)]
    cases hd : deserT m with
    | error e => rfl
    | ok p =>
      cases p
      rfl

/-- Witness for C3 with `T = u32`, `VER = 3`: buffer version 2 gates the
value away; buffer version 5 passes it through as a plain `u32`. -/
theorem C3_witness :
    ((WriteMessage.new 2).protocol_version < 3 ∧
      ProtocolOption.serialize 3 serialize_u32 (.some 7) (WriteMessage.new 2) =
        .ok (WriteMessage.new 2)) ∧
    ((ReceivedMessage.mk 2 [7, 0, 0, 0] 0).protocol_version < 3 ∧
      ProtocolOption.deserialize 3 deserialize_u32 ⟨2, [7, 0, 0, 0], 0⟩ =
        .ok (.unsupportedVersion, ⟨2, [7, 0, 0, 0], 0⟩)) ∧
    (3 ≤ (WriteMessage.new 5).protocol_version ∧
      ProtocolOption.serialize 3 serialize_u32 (.some 7) (WriteMessage.new 5) =
        serialize_u32 7 (WriteMessage.new 5)) ∧
    (3 ≤ (ReceivedMessage.mk 5 [7, 0, 0, 0] 0).protocol_version ∧
      ProtocolOption.deserialize 3 deserialize_u32 ⟨5, [7, 0, 0, 0], 0⟩ =
        (deserialize_u32 ⟨5, [7, 0, 0, 0], 0⟩).map
          (fun p => (ProtocolOption.some p.1, p.2))) := by
  refine ⟨⟨by decide, ?_⟩, ⟨by decide, ?_⟩, ⟨by decide, ?_⟩, ⟨by decide, ?_⟩⟩
  · exact (C3_protocol_option_gating Nat 3 serialize_u32 deserialize_u32
      (.some 7) 7 (WriteMessage.new 2) ⟨2, [7, 0, 0, 0], 0⟩).1 (by decide)
  · exact (C3_protocol_option_gating Nat 3 serialize_u32 deserialize_u32
      (.some 7) 7 (WriteMessage.new 2) ⟨2, [7, 0, 0, 0], 0⟩).2.1 (by decide)
  · exact (C3_protocol_option_gating Nat 3 serialize_u32 deserialize_u32
      (.some 7) 7 (WriteMessage.new 5) ⟨5, [7, 0, 0, 0], 0⟩).2.2.1 (by decide)
  · exact (C3_protocol_option_gating Nat 3 serialize_u32 deserialize_u32
      (.some 7) 7 (WriteMessage.new 5) ⟨5, [7, 0, 0, 0], 0⟩).2.2.2 (by decide)

theorem fromLE4_toLE4 {raw : Nat} (h : raw < 4294967296) :
    fromLE4 (raw % 256) (raw / 256 % 256) (raw / 65536 % 256)
      (raw / 16777216 % 256) = raw := by
  simp only [fromLE4]
  omega

theorem DeviceType.tryFrom_device_of_ge {raw : Nat} (h : 15 ≤ raw) :
    DeviceType.tryFrom raw =
      .error (.ProtocolError "unknown discriminant value for DeviceType") := by
  simp only [DeviceType.tryFrom]
  repeat rw [if_neg (by omega)]

theorem ZoneType.tryFrom_zone_of_ge {raw : Nat} (h : 3 ≤ raw) :
    ZoneType.tryFrom raw =
      .error (.ProtocolError "unknown discriminant value for ZoneType") := by
  simp only [ZoneType.tryFrom]
  repeat rw [if_neg (by omega)]

theorem ColorMode.from_u32_color_mode_of_ge {raw : Nat} (h : 4 ≤ raw) :
    ColorMode.from_u32 raw = none := by
  simp only [ColorMode.from_u32]
  repeat rw [if_neg (by omega)]

theorem Direction.from_u32_direction_of_ge {raw : Nat} (h : 6 ≤ raw) :
    Direction.from_u32 raw = none := by
  simp only [Direction.from_u32]
  repeat rw [if_neg (by omega)]

theorem PacketId.tryFrom_of_not_mem {raw : Nat}
    (h : raw ∉ ([0, 1, 40, 50, 100, 150, 151, 152, 153, 1000, 1001, 1002,
      1050, 1051, 1052, 1100, 1101, 1102] : List Nat)) :
    PacketId.tryFrom raw =
      .error (.ProtocolError "unknown discriminant value for PacketId") := by
  simp only [List.mem_cons, List.not_mem_nil, or_false, not_or] at h
  obtain ⟨h1, h2, h3, h4, h5, h6, h7, h8, h9, h10, h11, h12, h13, h14, h15,
    h16, h17, h18⟩ := h
  simp only [PacketId.tryFrom]
  repeat rw [if_neg (by omega)]

/-- C6: decoding a `u32` discriminant as `DeviceType` never fails — any
unrecognized value maps to `DeviceType::Unknown` — while decoding an
unrecognized discriminant as `ZoneType`, `ColorMode`, `Direction`, or
`PacketId` is a hard `ProtocolError`.  (The discriminant tables are
contiguous for `DeviceType` (0-14), `ZoneType` (0-2), `ColorMode` (0-3) and
`Direction` (0-5), so "unrecognized" is a lower bound there; `PacketId` is
the explicit list.) -/
theorem C6_enum_discriminant_decoding (V raw : Nat) (rest : List Nat)
    (hraw : raw < 4294967296) :
    (∃ t m2, DeviceType.deserialize ⟨V, toLE4 raw ++ rest, 0⟩ = .ok (t, m2)) ∧
    (15 ≤ raw → DeviceType.deserialize ⟨V, toLE4 raw ++ rest, 0⟩ =
        .ok (.Unknown, ⟨V, toLE4 raw ++ rest, 0 + 4⟩)) ∧
    (3 ≤ raw → ZoneType.deserialize ⟨V, toLE4 raw ++ rest, 0⟩ =
        .error (.ProtocolError "unknown zone type")) ∧
    (4 ≤ raw → ColorMode.deserialize ⟨V, toLE4 raw ++ rest, 0⟩ =
        .error (.ProtocolError "unknown color mode")) ∧
    (6 ≤ raw → Direction.try_read (toLE4 raw ++ rest) =
        .error (.ProtocolError "unknown direction")) ∧
    (raw ∉ ([0, 1, 40, 50, 100, 150, 151, 152, 153, 1000, 1001, 1002,
        1050, 1051, 1052, 1100, 1101, 1102] : List Nat) →
      PacketId.deserialize ⟨V, toLE4 raw ++ rest, 0⟩ =
        .error (.ProtocolError "unknown discriminant value for PacketId")) := by
  have h32 : (⟨V, toLE4 raw ++ rest, 0⟩ : ReceivedMessage).read_u32 =
      .ok (raw, ⟨V, toLE4 raw ++ rest, 0 + 4⟩) := by
    refine read_u32_at_front ?_ hraw
    show toLE4 raw <+: List.drop 0 (toLE4 raw ++ rest)
    simp only [List.drop_zero]
    exact List.prefix_append (toLE4 raw) rest
  refine ⟨?_, ?_, ?_, ?_, ?_, ?_⟩
  · simp only [DeviceType.deserialize, h32, ok_bind]
    cases DeviceType.tryFrom raw with
    | ok t => exact ⟨t, _, rfl⟩
    | error e => exact ⟨.Unknown, _, rfl⟩
  · intro h
    simp only [DeviceType.deserialize, h32, ok_bind, DeviceType.tryFrom_device_of_ge h]
  · intro h
    simp only [ZoneType.deserialize, h32, ok_bind, ZoneType.tryFrom_zone_of_ge h]
  · intro h
    simp only [ColorMode.deserialize, h32, ok_bind, ColorMode.from_u32_color_mode_of_ge h]
  · intro h
    simp only [Direction.try_read, toLE4, List.cons_append, List.nil_append,
      fromLE4_toLE4 hraw, Direction.from_u32_direction_of_ge h]
  · intro h
    simp only [PacketId.deserialize, h32, ok_bind, PacketId.tryFrom_of_not_mem h]

/-- Witness for C6 at the spec's fixture discriminant 100 (and 101 for
`PacketId`, since 100 is a recognized packet id). -/
theorem C6_witness :
    ((100 : Nat) < 4294967296 ∧ 15 ≤ (100 : Nat) ∧
      DeviceType.deserialize ⟨5, toLE4 100 ++ [], 0⟩ =
        .ok (.Unknown, ⟨5, toLE4 100 ++ [], 0 + 4⟩) ∧
      ZoneType.deserialize ⟨5, toLE4 100 ++ [], 0⟩ =
        .error (.ProtocolError "unknown zone type") ∧
      ColorMode.deserialize ⟨5, toLE4 100 ++ [], 0⟩ =
        .error (.ProtocolError "unknown color mode") ∧
      Direction.try_read (toLE4 100 ++ []) =
        .error (.ProtocolError "unknown direction")) ∧
    ((101 : Nat) ∉ ([0, 1, 40, 50, 100, 150, 151, 152, 153, 1000, 1001, 1002,
        1050, 1051, 1052, 1100, 1101, 1102] : List Nat) ∧
      PacketId.deserialize ⟨5, toLE4 101 ++ [], 0⟩ =
        .error (.ProtocolError "unknown discriminant value for PacketId")) := by
  have h100 := C6_enum_discriminant_decoding 5 100 [] (by decide)
  have h101 := C6_enum_discriminant_decoding 5 101 [] (by decide)
  exact ⟨⟨by decide, by decide, h100.2.1 (by decide), h100.2.2.1 (by decide),
      h100.2.2.2.1 (by decide), h100.2.2.2.2.1 (by decide)⟩,
    ⟨by decide, h101.2.2.2.2.2 (by decide)⟩⟩

/-! ## Round-trip helper lemmas -/

theorem serializeStr_eq (s : List Nat) (buf : WriteMessage)
    (hs : s.length + 1 < 65536) :
    serializeStr s buf =
      .ok { buf with buf := buf.buf ++ toLE2 (s.length + 1) ++ s ++ [0] } := by
  have hmod : s.length % 65536 = s.length := Nat.mod_eq_of_lt (by omega)
  simp [serializeStr, serializeRawString, WriteMessage.write_u16,
    WriteMessage.write_u8, WriteMessage.extend_from_slice, hmod]

theorem Color.serialize_eq (c : Color) (buf : WriteMessage) :
    Color.serialize c buf =
      .ok { buf with buf := buf.buf ++ [c.r % 256, c.g % 256, c.b % 256, 0] } := by
  simp [Color.serialize, WriteMessage.write_u8]

theorem available_buf_mk_add (p : Nat) (buf : List Nat) (i k : Nat) :
    ReceivedMessage.available_buf ⟨p, buf, i + k⟩ =
      (ReceivedMessage.available_buf ⟨p, buf, i⟩).drop k := by
  simp [ReceivedMessage.available_buf, List.drop_drop, Nat.add_comm]

theorem Color.deserialize_at_front {m : ReceivedMessage} {r g b x : Nat}
    (h : [r, g, b, x] <+: m.available_buf) :
    Color.deserialize m = .ok (⟨r, g, b⟩, { m with idx := m.idx + 4 }) := by
  obtain ⟨t, ht⟩ := h
  have h0 : m.available_buf = r :: g :: b :: x :: t := ht.symm
  have h1 : ReceivedMessage.available_buf { m with idx := m.idx + 1 } =
      g :: b :: x :: t := by
    rw [ReceivedMessage.available_buf_idx_add, h0]
    rfl
  have h2 : ReceivedMessage.available_buf { m with idx := m.idx + 1 + 1 } =
      b :: x :: t := by
    rw [available_buf_mk_add m.protocol_version m.buf (m.idx + 1) 1, h1]
    rfl
  have h3 : ReceivedMessage.available_buf { m with idx := m.idx + 1 + 1 + 1 } =
      x :: t := by
    rw [available_buf_mk_add m.protocol_version m.buf (m.idx + 1 + 1) 1, h2]
    rfl
  have e0 := m.read_u8_cons r (g :: b :: x :: t) h0
  have e1 := ReceivedMessage.read_u8_cons { m with idx := m.idx + 1 } g
    (b :: x :: t) h1
  have e2 := ReceivedMessage.read_u8_cons { m with idx := m.idx + 1 + 1 } b
    (x :: t) h2
  have e3 := ReceivedMessage.read_u8_cons { m with idx := m.idx + 1 + 1 + 1 } x
    t h3
  have hidx : m.idx + 1 + 1 + 1 + 1 = m.idx + 4 := by omega
  simp only [Color.deserialize, e0, ok_bind, e1, e2, e3, hidx]

theorem deserializeString_at_front {s : List Nat} (hval : utf8Valid s = true)
    (hlen : s.length + 1 < 65536) {m : ReceivedMessage}
    (hm : (toLE2 (s.length + 1) ++ (s ++ [0])) <+: m.available_buf) :
    deserializeString m = .ok (s, { m with idx := m.idx + (2 + s.length + 1) }) := by
  obtain ⟨hp1, hp2⟩ := prefix_split hm
  have h1 := read_u16_at_front hp1 hlen
  have hl2 : (toLE2 (s.length + 1)).length = 2 := rfl
  rw [hl2, ← ReceivedMessage.available_buf_idx_add m 2] at hp2
  have h2 := read_exact_at_front hp2
  simp only [List.length_append, List.length_cons, List.length_nil] at h2
  have hstep := deserializeString_step h1 h2
  have hdl : (s ++ [0]).dropLast = s := by simp
  rw [hdl] at hstep
  rw [hstep, if_pos hval]
  have hidx : m.idx + 2 + (s.length + (0 + 1)) = m.idx + (2 + s.length + 1) := by
    omega
  rw [hidx]

theorem deserialize_u32_at_front {m : ReceivedMessage} {x : Nat}
    (h : toLE4 x <+: m.available_buf) (hx : x < 4294967296) :
    deserialize_u32 m = .ok (x, { m with idx := m.idx + 4 }) :=
  read_u32_at_front h hx

theorem deserialize_i32_at_front {m : ReceivedMessage} {v : Int}
    (h : toLE4 (i32Bits v) <+: m.available_buf)
    (hv : -2147483648 ≤ v ∧ v < 2147483648) :
    deserialize_i32 m = .ok (v, { m with idx := m.idx + 4 }) := by
  have hb : i32Bits v < 4294967296 := by
    simp only [i32Bits]
    omega
  have h32 := read_u32_at_front h hb
  simp only [deserialize_i32, h32, ok_bind]
  by_cases hlt : i32Bits v < 2147483648
  · rw [if_pos hlt]
    simp only [Except.ok.injEq, Prod.mk.injEq]
    refine ⟨?_, trivial⟩
    simp only [i32Bits] at hlt ⊢
    omega
  · rw [if_neg hlt]
    simp only [Except.ok.injEq, Prod.mk.injEq]
    refine ⟨?_, trivial⟩
    simp only [i32Bits] at hlt ⊢
    omega

theorem foldlM_color_serialize (l : List Color) (w : WriteMessage) :
    l.foldlM (fun b t => Color.serialize t b) w =
      .ok { w with buf := w.buf ++
        (l.map fun c => [c.r % 256, c.g % 256, c.b % 256, 0]).flatten } := by
  induction l generalizing w with
  | nil =>
    show Except.ok w = _
    simp
  | cons c t ih =>
    rw [List.foldlM_cons, Color.serialize_eq, ok_bind, ih]
    simp

theorem serializeVec_color_eq (l : List Color) (buf : WriteMessage) :
    serializeVec Color.serialize l buf =
      .ok { buf with buf := buf.buf ++ toLE2 (l.length % 65536) ++
        (l.map fun c => [c.r % 256, c.g % 256, c.b % 256, 0]).flatten } := by
  rw [serializeVec, foldlM_color_serialize]
  simp [WriteMessage.write_u16]

theorem flatten_quad_length (l : List Color) :
    ((l.map fun c => [c.r, c.g, c.b, 0]).flatten).length = 4 * l.length := by
  induction l with
  | nil => simp
  | cons c t ih => simp [ih]; omega

theorem read_n_colors_at_front (l : List Color)
    (hl : ∀ c ∈ l, c.r < 256 ∧ c.g < 256 ∧ c.b < 256) :
    ∀ m : ReceivedMessage,
      (l.map fun c => [c.r, c.g, c.b, 0]).flatten <+: m.available_buf →
      ReceivedMessage.read_n_values Color.deserialize l.length m =
        .ok (l, { m with idx := m.idx + 4 * l.length }) := by
  induction l with
  | nil =>
    intro m _
    simp [ReceivedMessage.read_n_values]
  | cons c t ih =>
    intro m hm
    simp only [List.map_cons, List.flatten_cons] at hm
    obtain ⟨hp1, hp2⟩ := prefix_split hm
    have hc := Color.deserialize_at_front hp1
    have hceta : (⟨c.r, c.g, c.b⟩ : Color) = c := rfl
    rw [hceta] at hc
    have hl4 : ([c.r, c.g, c.b, 0] : List Nat).length = 4 := rfl
    rw [hl4, ← ReceivedMessage.available_buf_idx_add m 4] at hp2
    have ht := ih (fun x hx => hl x (List.mem_cons_of_mem c hx))
      { m with idx := m.idx + 4 } hp2
    have hidx : m.idx + 4 + 4 * t.length = m.idx + 4 * (c :: t).length := by
      simp only [List.length_cons]
      omega
    show ReceivedMessage.read_n_values Color.deserialize (t.length + 1) m = _
    simp only [ReceivedMessage.read_n_values, hc, ok_bind, ht, hidx]

theorem length_toLE2 (x : Nat) : (toLE2 x).length = 2 := rfl

theorem length_toLE4 (x : Nat) : (toLE4 x).length = 4 := rfl

/-- C1: for every supported protocol version `V`, deserializing the bytes
produced by serializing a valid value yields the value back, for fixed-width
integers (`u8`/`u16`/`u32` as written and read by the message buffers),
`Color`, strings, `Vec` sequences (shown at element type `Color`), the
`SegmentData` domain record (at versions ≥ 4, where it is codable at all),
and the discriminant enums implementing both directions (`DeviceType`,
`ZoneType`, `ColorMode`, `PacketId`).  Each decode also consumes exactly the
encoded bytes. -/
theorem C1_roundtrip (V : Nat)
    (x8 x16 x32 : Nat) (h8 : x8 < 256) (h16 : x16 < 65536)
    (h32 : x32 < 4294967296)
    (c : Color) (hc : c.r < 256 ∧ c.g < 256 ∧ c.b < 256)
    (s : List Nat) (hsv : utf8Valid s = true) (hslen : s.length + 1 < 65536)
    (l : List Color) (hl : ∀ x ∈ l, x.r < 256 ∧ x.g < 256 ∧ x.b < 256)
    (hllen : l.length < 65536)
    (seg : SegmentData) (hsegv : 4 ≤ V) (hsegname : utf8Valid seg.name = true)
    (hsegnlen : seg.name.length + 1 < 65536)
    (hsegty : -2147483648 ≤ seg.seg_type ∧ seg.seg_type < 2147483648)
    (hsegsi : seg.start_idx < 4294967296)
    (hseglc : seg.led_count < 4294967296) :
    (((WriteMessage.new V).write_u8 x8).buf = [x8] ∧
      ReceivedMessage.read_u8 ⟨V, [x8], 0⟩ = .ok (x8, ⟨V, [x8], 1⟩)) ∧
    (((WriteMessage.new V).write_u16 x16).buf = toLE2 x16 ∧
      ReceivedMessage.read_u16 ⟨V, toLE2 x16, 0⟩ =
        .ok (x16, ⟨V, toLE2 x16, 2⟩)) ∧
    (((WriteMessage.new V).write_u32 x32).buf = toLE4 x32 ∧
      ReceivedMessage.read_u32 ⟨V, toLE4 x32, 0⟩ =
        .ok (x32, ⟨V, toLE4 x32, 4⟩)) ∧
    (∃ enc, Color.serialize c (WriteMessage.new V) = .ok ⟨V, enc⟩ ∧
      Color.deserialize ⟨V, enc, 0⟩ = .ok (c, ⟨V, enc, enc.length⟩)) ∧
    (∃ enc, serializeStr s (WriteMessage.new V) = .ok ⟨V, enc⟩ ∧
      deserializeString ⟨V, enc, 0⟩ = .ok (s, ⟨V, enc, enc.length⟩)) ∧
    (∃ enc, serializeVec Color.serialize l (WriteMessage.new V) = .ok ⟨V, enc⟩ ∧
      deserializeVec Color.deserialize ⟨V, enc, 0⟩ =
        .ok (l, ⟨V, enc, enc.length⟩)) ∧
    (∃ enc, SegmentData.serialize seg (WriteMessage.new V) = .ok ⟨V, enc⟩ ∧
      SegmentData.deserialize ⟨V, enc, 0⟩ = .ok (seg, ⟨V, enc, enc.length⟩)) ∧
    (∀ t : DeviceType,
      DeviceType.serialize t (WriteMessage.new V) = .ok ⟨V, toLE4 t.toU32⟩ ∧
      DeviceType.deserialize ⟨V, toLE4 t.toU32, 0⟩ =
        .ok (t, ⟨V, toLE4 t.toU32, 4⟩)) ∧
    (∀ t : ZoneType,
      ZoneType.serialize t (WriteMessage.new V) = .ok ⟨V, toLE4 t.toU32⟩ ∧
      ZoneType.deserialize ⟨V, toLE4 t.toU32, 0⟩ =
        .ok (t, ⟨V, toLE4 t.toU32, 4⟩)) ∧
    (∀ t : ColorMode,
      ColorMode.serialize t (WriteMessage.new V) = .ok ⟨V, toLE4 t.toU32⟩ ∧
      ColorMode.deserialize ⟨V, toLE4 t.toU32, 0⟩ =
        .ok (t, ⟨V, toLE4 t.toU32, 4⟩)) ∧
    (∀ t : PacketId,
      PacketId.serialize t (WriteMessage.new V) = .ok ⟨V, toLE4 t.toU32⟩ ∧
      PacketId.deserialize ⟨V, toLE4 t.toU32, 0⟩ =
        .ok (t, ⟨V, toLE4 t.toU32, 4⟩)) := by
  refine ⟨⟨?_, ?_⟩, ⟨?_, ?_⟩, ⟨?_, ?_⟩, ?_, ?_, ?_, ?_, ?_, ?_, ?_, ?_⟩
  · simp [WriteMessage.new, WriteMessage.write_u8, Nat.mod_eq_of_lt h8]
  · exact ReceivedMessage.read_u8_cons ⟨V, [x8], 0⟩ x8 [] rfl
  · simp [WriteMessage.new, WriteMessage.write_u16]
  · exact read_u16_at_front List.prefix_rfl h16
  · simp [WriteMessage.new, WriteMessage.write_u32]
  · exact read_u32_at_front List.prefix_rfl h32
  · -- Color
    obtain ⟨h1, h2, h3⟩ := hc
    refine ⟨[c.r, c.g, c.b, 0], ?_, ?_⟩
    · rw [Color.serialize_eq]
      simp [WriteMessage.new, Nat.mod_eq_of_lt h1, Nat.mod_eq_of_lt h2,
        Nat.mod_eq_of_lt h3]
    · have hm : ([c.r, c.g, c.b, 0] : List Nat) <+:
          ReceivedMessage.available_buf ⟨V, [c.r, c.g, c.b, 0], 0⟩ :=
        List.prefix_rfl
      exact Color.deserialize_at_front hm
  · -- String
    refine ⟨toLE2 (s.length + 1) ++ (s ++ [0]), ?_, ?_⟩
    · rw [serializeStr_eq s _ hslen]
      simp [WriteMessage.new]
    · have hm : (toLE2 (s.length + 1) ++ (s ++ [0])) <+:
          ReceivedMessage.available_buf
            ⟨V, toLE2 (s.length + 1) ++ (s ++ [0]), 0⟩ :=
        List.prefix_rfl
      rw [deserializeString_at_front hsv hslen hm]
      have hl5 : (toLE2 (s.length + 1) ++ (s ++ [0])).length =
          0 + (2 + s.length + 1) := by
        simp only [List.length_append, length_toLE2, List.length_cons,
          List.length_nil]
        omega
      rw [hl5]
  · -- Vec<Color>
    have hmap : l.map (fun c => [c.r % 256, c.g % 256, c.b % 256, 0]) =
        l.map (fun c => [c.r, c.g, c.b, 0]) := by
      refine List.map_congr_left ?_
      intro x hx
      obtain ⟨h1, h2, h3⟩ := hl x hx
      simp [Nat.mod_eq_of_lt h1, Nat.mod_eq_of_lt h2, Nat.mod_eq_of_lt h3]
    have hmod : l.length % 65536 = l.length := Nat.mod_eq_of_lt hllen
    refine ⟨toLE2 l.length ++ (l.map fun c => [c.r, c.g, c.b, 0]).flatten,
      ?_, ?_⟩
    · rw [serializeVec_color_eq, hmap, hmod]
      simp [WriteMessage.new]
    · have h1 : ReceivedMessage.read_u16
          ⟨V, toLE2 l.length ++ (l.map fun c => [c.r, c.g, c.b, 0]).flatten, 0⟩ =
          .ok (l.length, ⟨V, toLE2 l.length ++
            (l.map fun c => [c.r, c.g, c.b, 0]).flatten, 0 + 2⟩) := by
        refine read_u16_at_front ?_ hllen
        exact List.prefix_append _ _
      have h2 := read_n_colors_at_front l hl
        ⟨V, toLE2 l.length ++ (l.map fun c => [c.r, c.g, c.b, 0]).flatten, 0 + 2⟩
        (by
          show (l.map fun c => [c.r, c.g, c.b, 0]).flatten <+:
            (toLE2 l.length ++ (l.map fun c => [c.r, c.g, c.b, 0]).flatten).drop 2
          rw [← length_toLE2 l.length, List.drop_left])
      simp only [deserializeVec, h1, ok_bind, h2]
      have hl6 : 0 + 2 + 4 * l.length =
          (toLE2 l.length ++ (l.map fun c => [c.r, c.g, c.b, 0]).flatten).length := by
        simp only [List.length_append, length_toLE2, flatten_quad_length]
      rw [hl6]
  · -- SegmentData
    have hnv : ¬ V < 4 := by omega
    refine ⟨toLE2 (seg.name.length + 1) ++ (seg.name ++ ([0] ++
      (toLE4 (i32Bits seg.seg_type) ++ (toLE4 seg.start_idx ++
        toLE4 seg.led_count)))), ?_, ?_⟩
    · rw [SegmentData.serialize, if_neg (by simpa [WriteMessage.new] using hnv)]
      rw [serializeStr_eq seg.name _ hsegnlen, ok_bind]
      simp only [serialize_i32, serialize_u32, WriteMessage.write_u32, ok_bind,
        WriteMessage.extend_from_slice, WriteMessage.new]
      simp [List.append_assoc]
    · rw [SegmentData.deserialize, if_neg (by simpa using hnv)]
      have hm1 : (toLE2 (seg.name.length + 1) ++ (seg.name ++ [0])) <+:
          ReceivedMessage.available_buf
            ⟨V, toLE2 (seg.name.length + 1) ++ (seg.name ++ ([0] ++
              (toLE4 (i32Bits seg.seg_type) ++ (toLE4 seg.start_idx ++
                toLE4 seg.led_count)))), 0⟩ := by
        refine ⟨toLE4 (i32Bits seg.seg_type) ++ (toLE4 seg.start_idx ++
          toLE4 seg.led_count), ?_⟩
        show _ = List.drop 0 _
        simp [List.append_assoc]
      have hstr := deserializeString_at_front hsegname hsegnlen hm1
      have havail : ReceivedMessage.available_buf
          ⟨V, toLE2 (seg.name.length + 1) ++ (seg.name ++ ([0] ++
            (toLE4 (i32Bits seg.seg_type) ++ (toLE4 seg.start_idx ++
              toLE4 seg.led_count)))), 0 + (2 + seg.name.length + 1)⟩ =
          toLE4 (i32Bits seg.seg_type) ++ (toLE4 seg.start_idx ++
            toLE4 seg.led_count) := by
        show List.drop _ _ = _
        have hsplit : toLE2 (seg.name.length + 1) ++ (seg.name ++ ([0] ++
            (toLE4 (i32Bits seg.seg_type) ++ (toLE4 seg.start_idx ++
              toLE4 seg.led_count)))) =
          (toLE2 (seg.name.length + 1) ++ seg.name ++ [0]) ++
            (toLE4 (i32Bits seg.seg_type) ++ (toLE4 seg.start_idx ++
              toLE4 seg.led_count)) := by
          simp [List.append_assoc]
        rw [hsplit]
        have hlen : (toLE2 (seg.name.length + 1) ++ seg.name ++ [0]).length =
            0 + (2 + seg.name.length + 1) := by
          simp [length_toLE2]
          omega
        rw [← hlen, List.drop_left]
      have hm2 : toLE4 (i32Bits seg.seg_type) <+:
          ReceivedMessage.available_buf
            ⟨V, toLE2 (seg.name.length + 1) ++ (seg.name ++ ([0] ++
              (toLE4 (i32Bits seg.seg_type) ++ (toLE4 seg.start_idx ++
                toLE4 seg.led_count)))), 0 + (2 + seg.name.length + 1)⟩ := by
        rw [havail]
        exact List.prefix_append _ _
      have hi32 := deserialize_i32_at_front hm2 hsegty
      have havail2 : ReceivedMessage.available_buf
          ⟨V, toLE2 (seg.name.length + 1) ++ (seg.name ++ ([0] ++
            (toLE4 (i32Bits seg.seg_type) ++ (toLE4 seg.start_idx ++
              toLE4 seg.led_count)))), 0 + (2 + seg.name.length + 1) + 4⟩ =
          toLE4 seg.start_idx ++ toLE4 seg.led_count := by
        rw [available_buf_mk_add, havail, ← length_toLE4 (i32Bits seg.seg_type),
          List.drop_left]
      have hm3 : toLE4 seg.start_idx <+:
          ReceivedMessage.available_buf
            ⟨V, toLE2 (seg.name.length + 1) ++ (seg.name ++ ([0] ++
              (toLE4 (i32Bits seg.seg_type) ++ (toLE4 seg.start_idx ++
                toLE4 seg.led_count)))), 0 + (2 + seg.name.length + 1) + 4⟩ := by
        rw [havail2]
        exact List.prefix_append _ _
      have hu1 := deserialize_u32_at_front hm3 hsegsi
      have havail3 : ReceivedMessage.available_buf
          ⟨V, toLE2 (seg.name.length + 1) ++ (seg.name ++ ([0] ++
            (toLE4 (i32Bits seg.seg_type) ++ (toLE4 seg.start_idx ++
              toLE4 seg.led_count)))), 0 + (2 + seg.name.length + 1) + 4 + 4⟩ =
          toLE4 seg.led_count := by
        rw [available_buf_mk_add, havail2, ← length_toLE4 seg.start_idx,
          List.drop_left]
      have hm4 : toLE4 seg.led_count <+:
          ReceivedMessage.available_buf
            ⟨V, toLE2 (seg.name.length + 1) ++ (seg.name ++ ([0] ++
              (toLE4 (i32Bits seg.seg_type) ++ (toLE4 seg.start_idx ++
                toLE4 seg.led_count)))),
              0 + (2 + seg.name.length + 1) + 4 + 4⟩ := by
        rw [havail3]
      have hu2 := deserialize_u32_at_front hm4 hseglc
      have hseta : (⟨seg.name, seg.seg_type, seg.start_idx, seg.led_count⟩ :
          SegmentData) = seg := rfl
      have hlenf : 0 + (2 + seg.name.length + 1) + 4 + 4 + 4 =
          (toLE2 (seg.name.length + 1) ++ (seg.name ++ ([0] ++
            (toLE4 (i32Bits seg.seg_type) ++ (toLE4 seg.start_idx ++
              toLE4 seg.led_count))))).length := by
        simp only [List.length_append, length_toLE2, length_toLE4,
          List.length_cons, List.length_nil]
        omega
      simp only [hstr, ok_bind, hi32, hu1, hu2]
      rw [hseta, hlenf]
  · intro t
    cases t <;> exact ⟨rfl, rfl⟩
  · intro t
    cases t <;> exact ⟨rfl, rfl⟩
  · intro t
    cases t <;> exact ⟨rfl, rfl⟩
  · intro t
    cases t <;> exact ⟨rfl, rfl⟩

/-- Witness for C1 at the spec's fixture values: the color `(37,54,126)` and
a small `SegmentData` round-trip at version 5, with every hypothesis
discharged concretely. -/
theorem C1_witness :
    ((37 : Nat) < 256 ∧ (300 : Nat) < 65536 ∧
      (185851 : Nat) < 4294967296 ∧
      ((Color.mk 37 54 126).r < 256 ∧ (Color.mk 37 54 126).g < 256 ∧
        (Color.mk 37 54 126).b < 256) ∧
      utf8Valid [116, 101, 115, 116] = true ∧
      ([116, 101, 115, 116] : List Nat).length + 1 < 65536 ∧
      (∀ x ∈ [Color.mk 37 54 126, Color.mk 37 54 255],
        x.r < 256 ∧ x.g < 256 ∧ x.b < 256) ∧
      ([Color.mk 37 54 126, Color.mk 37 54 255]).length < 65536 ∧
      (4 : Nat) ≤ 5 ∧
      utf8Valid (SegmentData.mk [115] (-5) 3 10).name = true ∧
      (SegmentData.mk [115] (-5) 3 10).name.length + 1 < 65536 ∧
      (-2147483648 ≤ (SegmentData.mk [115] (-5) 3 10).seg_type ∧
        (SegmentData.mk [115] (-5) 3 10).seg_type < 2147483648) ∧
      (SegmentData.mk [115] (-5) 3 10).start_idx < 4294967296 ∧
      (SegmentData.mk [115] (-5) 3 10).led_count < 4294967296) ∧
    (∃ enc, Color.serialize ⟨37, 54, 126⟩ (WriteMessage.new 5) = .ok ⟨5, enc⟩ ∧
      Color.deserialize ⟨5, enc, 0⟩ =
        .ok (⟨37, 54, 126⟩, ⟨5, enc, enc.length⟩)) ∧
    (∃ enc, SegmentData.serialize ⟨[115], -5, 3, 10⟩ (WriteMessage.new 5) =
        .ok ⟨5, enc⟩ ∧
      SegmentData.deserialize ⟨5, enc, 0⟩ =
        .ok (⟨[115], -5, 3, 10⟩, ⟨5, enc, enc.length⟩)) := by
  have hl : ∀ x ∈ [Color.mk 37 54 126, Color.mk 37 54 255],
      x.r < 256 ∧ x.g < 256 ∧ x.b < 256 := by
    intro x hx
    simp only [List.mem_cons, List.not_mem_nil, or_false] at hx
    rcases hx with rfl | rfl <;> decide
  have h := C1_roundtrip 5 37 300 185851 (by decide) (by decide) (by decide)
    ⟨37, 54, 126⟩ (by decide) [116, 101, 115, 116] (by decide) (by decide)
    [Color.mk 37 54 126, Color.mk 37 54 255] hl (by decide)
    ⟨[115], -5, 3, 10⟩ (by decide) (by decide) (by decide) (by decide)
    (by decide) (by decide)
  exact ⟨⟨by decide, by decide, by decide, by decide, by decide, by decide,
    hl, by decide, by decide, by decide, by decide, by decide, by decide,
    by decide⟩, h.2.2.2.1, h.2.2.2.2.2.2.1⟩

/-! ## Size agreement (C4) -/

theorem error_bind {α β : Type} (e : OpenRgbError) (f : α → OpenRgbResult β) :
    (Except.error e >>= f) = .error e := rfl

theorem mapM_color_try_write (l : List Color) :
    l.mapM color_try_write =
      .ok (l.map fun c => [c.r % 256, c.g % 256, c.b % 256, 0]) := by
  induction l with
  | nil => rfl
  | cons c t ih =>
    rw [List.mapM_cons]
    simp only [color_try_write, ok_bind, ih]
    rfl

theorem slice_try_write_color (l : List Color) (h : l.length ≤ 65535) :
    slice_try_write color_try_write l =
      .ok (toLE2 l.length ++
        (l.map fun c => [c.r % 256, c.g % 256, c.b % 256, 0]).flatten) := by
  rw [slice_try_write, if_pos h]
  simp only [mapM_color_try_write, ok_bind]

theorem flatten_quad_mod_length (l : List Color) :
    ((l.map fun c => [c.r % 256, c.g % 256, c.b % 256, 0]).flatten).length =
      4 * l.length := by
  induction l with
  | nil => simp
  | cons c t ih => simp [ih]; omega

theorem sum_const_four (l : List Color) :
    (l.map fun _ => (4 : Nat)).sum = 4 * l.length := by
  induction l with
  | nil => simp
  | cons c t ih => simp [ih]; omega

/-- C4: for a `ModeData` whose stored `protocol_version` agrees with the
stream's negotiated version, every successful encode writes exactly
`size()` bytes (likewise for the component writers); and in
`WritableStream::write_value` a count/size disagreement trips the `assert!`
(a panic), is never returned as a recoverable `OpenRgbError`, and any
returned count equals `size()`. -/
theorem C4_written_bytes_equal_size (m : ModeData) (V : Nat)
    (hpv : m.protocol_version = V) (size : Nat)
    (tw : OpenRgbResult (List Nat)) :
    (∀ bs, m.try_write V = .ok bs → bs.length = m.size) ∧
    (∀ s, (str_try_write s).map List.length = .ok (str_size s)) ∧
    (∀ c, (color_try_write c).map List.length = .ok color_size) ∧
    (∀ x, (u32_try_write x).map List.length = .ok 4) ∧
    (∀ bs, tw = .ok bs → bs.length ≠ size →
      write_value size tw = .panicked "size mismatch") ∧
    (∀ n, write_value size tw = .ok n → n = size) ∧
    (∀ e, write_value size tw = .err e ↔ tw = .error e) := by
  refine ⟨?_, ?_, ?_, ?_, ?_, ?_, ?_⟩
  · intro bs hok
    by_cases hcl : m.colors.length ≤ 65535
    · simp only [ModeData.try_write, str_try_write, i32_try_write,
        flags_try_write, u32_try_write, write_value_min_version,
        direction_try_write, colorMode_try_write, ok_bind,
        slice_try_write_color m.colors hcl] at hok
      by_cases hb : V < 3
      · simp only [if_pos hb, ok_bind, Except.ok.injEq] at hok
        subst hok
        simp only [List.length_append, length_toLE2, length_toLE4,
          List.length_cons, List.length_nil, List.append_nil,
          flatten_quad_mod_length, ModeData.size, str_size, slice_size,
          color_size, sum_const_four, hpv, if_neg (by omega : ¬ 3 ≤ V)]
      · simp only [if_neg hb, ok_bind, Except.ok.injEq] at hok
        subst hok
        simp only [List.length_append, length_toLE2, length_toLE4,
          List.length_cons, List.length_nil, List.append_nil,
          flatten_quad_mod_length, ModeData.size, str_size, slice_size,
          color_size, sum_const_four, hpv, if_pos (by omega : 3 ≤ V)]
    · exfalso
      simp only [ModeData.try_write, str_try_write, i32_try_write,
        flags_try_write, u32_try_write, write_value_min_version,
        direction_try_write, colorMode_try_write, ok_bind] at hok
      rw [slice_try_write, if_neg hcl] at hok
      by_cases hb : V < 3
      · simp only [if_pos hb, ok_bind, error_bind, reduceCtorEq] at hok
      · simp only [if_neg hb, ok_bind, error_bind, reduceCtorEq] at hok
  · intro s
    simp only [str_try_write, Except.map, Except.ok.injEq, str_size,
      List.length_append, length_toLE2, List.length_cons, List.length_nil]
  · intro c
    simp only [color_try_write, Except.map, Except.ok.injEq, color_size,
      List.length_cons, List.length_nil]
  · intro x
    simp only [u32_try_write, Except.map, Except.ok.injEq, length_toLE4]
  · intro bs htw hne
    rw [htw]
    show (if bs.length = size then WriteOutcome.ok bs.length
      else .panicked "size mismatch") = _
    rw [if_neg hne]
  · intro n h
    cases tw with
    | error e => simp [write_value] at h
    | ok bs =>
      simp only [write_value] at h
      by_cases hx : bs.length = size
      · rw [if_pos hx] at h
        cases h
        exact hx
      · rw [if_neg hx] at h
        cases h
  · intro e
    cases tw with
    | error f => simp [write_value]
    | ok bs =>
      simp only [write_value]
      by_cases hx : bs.length = size
      · rw [if_pos hx]
        simp
      · rw [if_neg hx]
        simp

/-- Witness for C4: a concrete `ModeData` at matching versions, and a
concrete 2-byte write against a declared size of 4 trips the assertion
rather than returning an error. -/
theorem C4_witness :
    (ModeData.mk [97] 3 0 none none none none none none none [⟨1, 2, 3⟩]
      none none none 0 5).protocol_version = 5 ∧
    ((.ok [1, 2] : OpenRgbResult (List Nat)) = .ok [1, 2] ∧
      ([1, 2] : List Nat).length ≠ 4 ∧
      write_value 4 (.ok [1, 2]) = .panicked "size mismatch") :=
  ⟨rfl, rfl, by decide,
    (C4_written_bytes_equal_size
      (ModeData.mk [97] 3 0 none none none none none none none [⟨1, 2, 3⟩]
        none none none 0 5) 5 rfl 4 (.ok [1, 2])).2.2.2.2.1
      [1, 2] rfl (by decide)⟩

/-! ## Fixed-size arrays (C8) -/

/-- C8 counterexample**: the source's array decoder reads the `N` elements
directly — on the buffer `[3,0,1,2,3]` a `[u8; 3]` decodes to `[3,0,1]` —
whereas under the claim a matching `u16` count prefix (`[3,0]`, matching
`N = 3`) would first be consumed, yielding `[1,2,3]`.  The two disagree, so
the claim's decode half is false. -/
theorem C8_counterexample :
    deserializeArray deserialize_u8 3 ⟨5, [3, 0, 1, 2, 3], 0⟩ =
      .ok ([3, 0, 1], ⟨5, [3, 0, 1, 2, 3], 3⟩) ∧
    deserializeArrayClaimed deserialize_u8 3 ⟨5, [3, 0, 1, 2, 3], 0⟩ =
      .ok ([1, 2, 3], ⟨5, [3, 0, 1, 2, 3], 5⟩) ∧
    ([3, 0, 1] : List Nat) ≠ [1, 2, 3] := by
  refine ⟨?_, ?_, by decide⟩ <;> rfl

theorem read_n_u8_of_le :
    ∀ (n : Nat) (m : ReceivedMessage), n ≤ m.available_buf.length →
      ReceivedMessage.read_n_values deserialize_u8 n m =
        .ok (m.available_buf.take n, { m with idx := m.idx + n }) := by
  intro n
  induction n with
  | zero =>
    intro m _
    simp [ReceivedMessage.read_n_values]
  | succ k ih =>
    intro m hm
    cases hv : m.available_buf with
    | nil => rw [hv] at hm; simp at hm
    | cons b t =>
      have hb := m.read_u8_cons b t hv
      have hat : ReceivedMessage.available_buf { m with idx := m.idx + 1 } = t := by
        rw [ReceivedMessage.available_buf_idx_add, hv]
        rfl
      have hk : k ≤ (ReceivedMessage.available_buf
          { m with idx := m.idx + 1 }).length := by
        rw [hat]
        rw [hv] at hm
        simp only [List.length_cons] at hm
        omega
      have ht := ih { m with idx := m.idx + 1 } hk
      rw [hat] at ht
      simp only [ReceivedMessage.read_n_values, deserialize_u8, hb, ok_bind,
        ht, hv, List.take_succ_cons]
      have hia : m.idx + 1 + k = m.idx + (k + 1) := by omega
      rw [hia]

/-- C8 amended**: encoding a fixed-size array forwards to the slice
serializer and so writes a `u16` count prefix before the `N` elements (shown
at element type `Color`; the slice `SerToBuf` impl itself is modelled from
the spec, its source module being absent); decoding, however, consumes NO
count prefix — it reads the `N` elements straight from the cursor (shown at
element type `u8`: the first `N` available bytes are returned verbatim). -/
theorem C8_array_codec_amended (lc : List Color) (buf : WriteMessage)
    (V n : Nat) (bytes : List Nat) (hn : n ≤ bytes.length) :
    serializeArray Color.serialize lc buf =
      .ok { buf with buf := buf.buf ++ toLE2 (lc.length % 65536) ++
        (lc.map fun c => [c.r % 256, c.g % 256, c.b % 256, 0]).flatten } ∧
    deserializeArray deserialize_u8 n ⟨V, bytes, 0⟩ =
      .ok (bytes.take n, ⟨V, bytes, n⟩) := by
  constructor
  · rw [serializeArray, serializeSlice, serializeVec_color_eq]
  · have h := read_n_u8_of_le n ⟨V, bytes, 0⟩
      (by simpa [ReceivedMessage.available_buf] using hn)
    rw [deserializeArray, h]
    simp [ReceivedMessage.available_buf]

/-- Witness for C8's amended statement at a concrete array and buffer. -/
theorem C8_witness :
    (3 : Nat) ≤ ([0, 1, 2, 3, 4, 5] : List Nat).length ∧
    deserializeArray deserialize_u8 3 ⟨5, [0, 1, 2, 3, 4, 5], 0⟩ =
      .ok (([0, 1, 2, 3, 4, 5] : List Nat).take 3, ⟨5, [0, 1, 2, 3, 4, 5], 3⟩) :=
  ⟨by decide,
    (C8_array_codec_amended [] (WriteMessage.new 5) 5 3 [0, 1, 2, 3, 4, 5]
      (by decide)).2⟩

/-! ## Length-prefix overflow on encode (C9) -/

/-- C9 counterexample**: serializing a `Vec<Color>` of 65536 elements via
`SerToBuf` does NOT fail — it succeeds, silently truncating the `u16` length
prefix to `0` (`65536 % 2^16`), falsifying "encoding fails with an error
rather than silently truncating ... on every encode path". -/
theorem C9_counterexample :
    (serializeVec Color.serialize (List.replicate 65536 (Color.mk 0 0 0))
        (WriteMessage.new 5)).toOption.map (fun b => b.buf.take 2) =
      some [0, 0] := by
  rw [serializeVec_color_eq, List.length_replicate, Nat.mod_self]
  rfl

/-- C9 amended**: only the stream-write path (`Writable for &[T]`) errors
when the element count exceeds `u16::MAX`; the buffer-serialize (`SerToBuf`)
paths truncate instead — `Vec<T>` writes `len as u16` and `&str` writes
`len as u16 + 1` — so the length prefix wraps modulo 2^16 without any
error. -/
theorem C9_encode_overflow_amended (α : Type)
    (elemW : α → OpenRgbResult (List Nat)) (l : List α)
    (hlen : 65535 < l.length) (lc : List Color) (s : List Nat)
    (buf : WriteMessage) :
    slice_try_write elemW l =
      .error (.ProtocolError "Slice is too large to encode") ∧
    serializeVec Color.serialize lc buf =
      .ok { buf with buf := buf.buf ++ toLE2 (lc.length % 65536) ++
        (lc.map fun c => [c.r % 256, c.g % 256, c.b % 256, 0]).flatten } ∧
    serializeStr s buf =
      .ok { buf with buf := buf.buf ++ toLE2 (s.length % 65536 + 1) ++
        s ++ [0] } := by
  refine ⟨?_, serializeVec_color_eq lc buf, ?_⟩
  · rw [slice_try_write, if_neg (by omega)]
  · simp [serializeStr, serializeRawString, WriteMessage.write_u16,
      WriteMessage.write_u8, WriteMessage.extend_from_slice]

/-- Witness for C9's amended statement: a 65536-element slice is rejected on
the stream-write path. -/
theorem C9_witness :
    (65535 : Nat) < (List.replicate 65536 (0 : Nat)).length ∧
    slice_try_write u32_try_write (List.replicate 65536 (0 : Nat)) =
      .error (.ProtocolError "Slice is too large to encode") :=
  ⟨by rw [List.length_replicate]; decide,
   (C9_encode_overflow_amended Nat u32_try_write
    (List.replicate 65536 (0 : Nat))
    (by rw [List.length_replicate]; decide) [] [] (WriteMessage.new 5)).1⟩

end OpenRgb
